import Mathlib

/-!
Infrared: a shallow embedding of the connection-processing node, the status
response overrides, the message templates, the configuration merge, the
config file dispatch and the event bus.

Go values are embedded as follows.

* `string` used as protocol data is a list of bytes (`GoString`), each byte a
  natural number below 256; `string` that is only carried around (status
  texts) is a Lean `String`.
* A pointer field `*T` is an `Option T` (`none` is `nil`); a slice whose
  nil-ness is tested by the code is an `Option (List T)`.
* A function that mutates its receiver through a pointer and returns `error`
  returns the new receiver together with an `Option` error.
* A channel is the list of the values that travel through it, in order.
-/

namespace Infrared

/-! ## Definitions -/

/-! ### internal/pkg/java/status_response.go -/

namespace status

/-- Modelled from the spec: `status.PlayerSampleJSON` is declared in the package
`status`, which is not among the sources; the spec gives a sample entry the fields `{name,id}`. -/
structure PlayerSampleJSON where
  Name : String
  ID : String
deriving DecidableEq, Repr, Inhabited

/-- Modelled from the spec: `status.VersionJSON`, fields `{name,protocol}`. -/
structure VersionJSON where
  Name : String
  Protocol : Int
deriving DecidableEq, Repr, Inhabited

/-- Modelled from the spec: `status.PlayersJSON`, fields `{max,online,sample}`.
The sample is a slice; `none` is the nil slice. -/
structure PlayersJSON where
  Max : Int
  Online : Int
  Sample : Option (List PlayerSampleJSON)
deriving DecidableEq, Repr, Inhabited

/-- Modelled from the spec: `status.DescriptionJSON`, field `{text}`. -/
structure DescriptionJSON where
  Text : String
deriving DecidableEq, Repr, Inhabited

/-- Modelled from the spec: `status.ResponseJSON`, fields
`{version, players, description, favicon}`. -/
structure ResponseJSON where
  Version : VersionJSON
  Players : PlayersJSON
  Description : DescriptionJSON
  Favicon : String
deriving DecidableEq, Repr, Inhabited

end status

/-- The struct `PlayerSample` of status_response.go. -/
structure PlayerSample where
  Name : String
  UUID : String
deriving DecidableEq, Repr, Inhabited

/-- The slice type `PlayerSamples`; `none` is the nil slice, which the
override tests for. -/
abbrev PlayerSamples := Option (List PlayerSample)

/-- The elements a `range` over the slice visits; a nil slice has none. -/
def PlayerSamples.elems (ps : PlayerSamples) : List PlayerSample :=
  ps.getD []

/-- The method `PlayerSamples.PlayerSampleJSON`: `make` a slice of `len(ps)` zero
values, then assign the entry at every index of the range loop. -/
def PlayerSamples.PlayerSampleJSON (ps : PlayerSamples) : List status.PlayerSampleJSON :=
  let ss : List status.PlayerSampleJSON :=
    List.replicate (PlayerSamples.elems ps).length { Name := "", ID := "" }
  (PlayerSamples.elems ps).enum.foldl
    (fun ss is => ss.set is.1 { Name := is.2.Name, ID := is.2.UUID }) ss

/-- The struct `OverrideServerStatusResponse`; every pointer field is an
`Option`. -/
structure OverrideServerStatusResponse where
  VersionName : Option String
  ProtocolNumber : Option Int
  MaxPlayerCount : Option Int
  PlayerCount : Option Int
  PlayerSamples : PlayerSamples
  Icon : Option String
  MOTD : Option String

/-- The type `MOTDOption`, a message option: a function on the text. -/
abbrev MOTDOption := String → String

/-- The method `OverrideServerStatusResponse.ResponseJSON`: seven guarded
assignments to the copy `resp`, in the order of the source. -/
def OverrideServerStatusResponse.ResponseJSON (r : OverrideServerStatusResponse)
    (resp : status.ResponseJSON) (motdOpts : List MOTDOption) : status.ResponseJSON :=
  let resp := match r.Icon with
    | some icon => { resp with Favicon := icon }
    | none => resp
  let resp := match r.VersionName with
    | some name => { resp with Version := { resp.Version with Name := name } }
    | none => resp
  let resp := match r.ProtocolNumber with
    | some n => { resp with Version := { resp.Version with Protocol := n } }
    | none => resp
  let resp := match r.MaxPlayerCount with
    | some n => { resp with Players := { resp.Players with Max := n } }
    | none => resp
  let resp := match r.PlayerCount with
    | some n => { resp with Players := { resp.Players with Online := n } }
    | none => resp
  let resp := match r.PlayerSamples with
    | some ps =>
      { resp with Players :=
          { resp.Players with Sample := some (PlayerSamples.PlayerSampleJSON (some ps)) } }
    | none => resp
  let resp := match r.MOTD with
    | some m =>
      let motd := motdOpts.foldl (fun motd opt => opt motd) m
      { resp with Description := { Text := motd } }
    | none => resp
  resp

/-- The struct `ServerStatusResponse`. -/
structure ServerStatusResponse where
  VersionName : String
  ProtocolNumber : Int
  MaxPlayerCount : Int
  PlayerCount : Int
  PlayerSamples : PlayerSamples
  Icon : String
  MOTD : String

/-- The method `ServerStatusResponse.ResponseJSON`. -/
def ServerStatusResponse.ResponseJSON (r : ServerStatusResponse) : status.ResponseJSON :=
  { Version := { Name := r.VersionName, Protocol := r.ProtocolNumber }
    Players :=
      { Max := r.MaxPlayerCount
        Online := r.PlayerCount
        Sample := some (PlayerSamples.PlayerSampleJSON r.PlayerSamples) }
    Favicon := r.Icon
    Description := { Text := r.MOTD } }

/-- The entry the sample loop writes for one player sample. -/
def sampleEntry (s : PlayerSample) : status.PlayerSampleJSON :=
  { Name := s.Name, ID := s.UUID }

/-! ### Go values shared by the protocol code -/

/-- A Go `string` holding protocol data: its bytes. -/
abbrev GoString := List Nat

/-- A Go `error` value: its message. -/
abbrev GoError := String

/-- A `net.Addr`, kept in its textual form `ip:port`. -/
abbrev Addr := GoString

/-- The bytes of an ASCII text, to write byte strings legibly. -/
def ascii (s : String) : GoString :=
  s.toList.map Char.toNat

/-! ### Go standard library: `strings.Contains` (for a one-byte needle),
`net.SplitHostPort` -/

/-- The call `strings.Contains(s, string(b))` for a single byte `b`. -/
def strings.ContainsByte (s : GoString) (b : Nat) : Bool :=
  s.contains b

/-- The helper `bytealg.IndexByteString`: the first index of `b`, if any. -/
def bytealg.IndexByteString : GoString → Nat → Option Nat
  | [], _ => none
  | x :: xs, b =>
    if x = b then some 0
    else match bytealg.IndexByteString xs b with
      | some i => some (i + 1)
      | none => none

/-- The helper `bytealg.LastIndexByteString`: the last index of `b`, if any. -/
def bytealg.LastIndexByteString : GoString → Nat → Option Nat
  | [], _ => none
  | x :: xs, b =>
    match bytealg.LastIndexByteString xs b with
    | some i => some (i + 1)
    | none => if x = b then some 0 else none

/-- The text of a byte string of ASCII characters. -/
def goText (s : GoString) : String :=
  String.mk (s.map Char.ofNat)

/-- The error `&net.AddrError{Err: why, Addr: addr}` as its message: the
method `AddrError.Error` puts the address before the reason unless the address
is empty. -/
def net.addrErr (addr : GoString) (why : String) : GoError :=
  if addr = [] then why else "address " ++ goText addr ++ ": " ++ why

/-- The function `net.SplitHostPort` of the Go standard library, statement by
statement. Bytes: `:` is 58, `[` is 91, `]` is 93. -/
def net.SplitHostPort (hostport : GoString) : Except GoError (GoString × GoString) :=
  match bytealg.LastIndexByteString hostport 58 with
  | none => .error (net.addrErr hostport "missing port in address")
  | some i =>
    let bracket : Except GoError (GoString × Nat × Nat) :=
      if hostport.head? = some 91 then
        match bytealg.IndexByteString hostport 93 with
        | none => .error (net.addrErr hostport "missing ']' in address")
        | some e =>
          if e + 1 = hostport.length then
            .error (net.addrErr hostport "missing port in address")
          else if e + 1 = i then .ok ((hostport.take e).drop 1, 1, e + 1)
          else if hostport[e + 1]? = some 58 then
            .error (net.addrErr hostport "too many colons in address")
          else .error (net.addrErr hostport "missing port in address")
      else
        let host := hostport.take i
        if (bytealg.IndexByteString host 58).isSome then
          .error (net.addrErr hostport "too many colons in address")
        else .ok (host, 0, 0)
    match bracket with
    | .error err => .error err
    | .ok (host, j, k) =>
      if (bytealg.IndexByteString (hostport.drop j) 91).isSome then
        .error (net.addrErr hostport "unexpected '[' in address")
      else if (bytealg.IndexByteString (hostport.drop k) 93).isSome then
        .error (net.addrErr hostport "unexpected ']' in address")
      else .ok (host, hostport.drop (i + 1))

/-! ### Packet codec and the two packet parsers

These live in the packages `protocol`, `handshaking` and `login`, which are
imported by cpn.go but are not among the sources. -/

namespace protocol

/-- Modelled from the spec: the type `protocol.Packet` is missing; the spec
has a packet as the tuple `(id: varint, data: bytes)`. -/
structure Packet where
  ID : Nat
  Data : List Nat
deriving DecidableEq, Repr, Inhabited

/-- Modelled from the spec: the varint reader is missing. Little-endian
base 128, seven data bits a byte, the top bit the continuation flag; it fails
with *varint_too_long* after five continuation bytes and with *unexpected_eof*
when the bytes run out. `fuel` is the number of bytes still allowed, `shift`
the weight of the next byte. -/
def readVarIntAux : Nat → Nat → List Nat → Except GoError (Nat × List Nat)
  | 0, _, _ => .error "varint_too_long"
  | _ + 1, _, [] => .error "unexpected_eof"
  | fuel + 1, shift, b :: bs =>
    if b < 128 then .ok (b * 2 ^ shift, bs)
    else
      match readVarIntAux fuel (shift + 7) bs with
      | .error err => .error err
      | .ok (v, rest) => .ok (b % 128 * 2 ^ shift + v, rest)

/-- Modelled from the spec: `read_varint(stream) → (value, bytes_consumed)`,
here returning the value and the unread rest. -/
def readVarInt (s : List Nat) : Except GoError (Nat × List Nat) :=
  readVarIntAux 5 0 s

/-- Modelled from the spec: the largest accepted frame length, `2^21 − 1`. -/
def MaxPacketSize : Nat := 2 ^ 21 - 1

/-- Modelled from the spec: the packet reader is missing. Read a varint `len`;
fail *frame_too_large* above the maximum and *empty_frame* at zero; read exactly
`len` bytes; from them read the varint `id`, the remainder is `data`. -/
def ReadPacket (s : List Nat) : Except GoError (Packet × List Nat) :=
  match readVarInt s with
  | .error err => .error err
  | .ok (len, rest) =>
    if len > MaxPacketSize then .error "frame_too_large"
    else if len = 0 then .error "empty_frame"
    else if rest.length < len then .error "unexpected_eof"
    else
      match readVarInt (rest.take len) with
      | .error err => .error err
      | .ok (id, data) => .ok ({ ID := id, Data := data }, rest.drop len)

/-- Modelled from the spec: the reader of a length-prefixed string is
missing: a varint byte count, then that many bytes. -/
def readString (s : List Nat) : Except GoError (GoString × List Nat) :=
  match readVarInt s with
  | .error err => .error err
  | .ok (n, rest) =>
    if rest.length < n then .error "unexpected_eof"
    else .ok (rest.take n, rest.drop n)

end protocol

namespace handshaking

/-- Modelled from the spec: the handshake struct is missing; its fields in
wire order are `protocol_version`, `server_address`, `server_port`,
`next_state`. -/
structure ServerBoundHandshake where
  ProtocolVersion : Nat
  ServerAddress : GoString
  ServerPort : Nat
  NextState : Nat
deriving DecidableEq, Repr, Inhabited

/-- Modelled from the spec: the state number of Status, `1=Status`. -/
def StateStatus : Nat := 1

/-- Modelled from the spec: the state number of Login, `2=Login`. -/
def StateLogin : Nat := 2

/-- Modelled from the spec: `UnmarshalServerBoundHandshake` is missing;
`parse_handshake` verifies `id == 0x00`, decodes the four fields and, lenient by
default, ignores trailing bytes. The field `next_state` is a varint in
`{1=Status, 2=Login}`; any other value is a bad field, an error of the kind
*protocol_semantics*. -/
def UnmarshalServerBoundHandshake (pk : protocol.Packet) :
    Except GoError ServerBoundHandshake :=
  if pk.ID ≠ 0 then .error "protocol_semantics: wrong packet id"
  else
    match protocol.readVarInt pk.Data with
    | .error err => .error err
    | .ok (version, r1) =>
      match protocol.readString r1 with
      | .error err => .error err
      | .ok (address, r2) =>
        match r2 with
        | hi :: lo :: r3 =>
          match protocol.readVarInt r3 with
          | .error err => .error err
          | .ok (next, _) =>
            if next = StateStatus ∨ next = StateLogin then
              .ok { ProtocolVersion := version, ServerAddress := address,
                    ServerPort := hi * 256 + lo, NextState := next }
            else .error "protocol_semantics: bad field next_state"
        | _ => .error "unexpected_eof"

/-- The part of a string before its first NUL byte, all of it when it has
none. -/
def beforeNul (s : GoString) : GoString :=
  s.takeWhile fun b => b ≠ 0

/-- Lowercase the ASCII letters `A`..`Z` (65..90), leave every other byte. -/
def lowerASCII (s : GoString) : GoString :=
  s.map fun b => if 65 ≤ b ∧ b ≤ 90 then b + 32 else b

/-- Modelled from the spec: `ParseServerAddress` is missing. For an address
field `H\0R\0U\0S` the spec has the routing host equal to `lower(H)` with a
trailing `:port` stripped (data model, testable property 4). The stripping of
the port is what `process` itself does to the result of this method (cpn.go
61-66), so the method gives `lower(H)`: the part of the address before the
first NUL, ASCII lowercased. The trim of a trailing dot that the parsers
section lists for `routing_host` is not modelled: neither property 4 nor cpn.go
has it. -/
def ServerBoundHandshake.ParseServerAddress (hs : ServerBoundHandshake) : GoString :=
  lowerASCII (beforeNul hs.ServerAddress)

/-- The NUL-separated segments of a string; a string without NUL is one
segment. -/
def nulSegments : GoString → List GoString
  | [] => [[]]
  | b :: bs =>
    if b = 0 then [] :: nulSegments bs
    else
      match nulSegments bs with
      | seg :: segs => (b :: seg) :: segs
      | [] => [[b]]

/-- Modelled from the spec: `ParseRealIP` is missing. Layout
`host\0ip:port\0uuid\0hex_signature`; it returns `(remote_addr, uuid,
signature)` or *no_real_ip* if there are fewer than two segments. -/
def ServerBoundHandshake.ParseRealIP (hs : ServerBoundHandshake) :
    Except GoError (Addr × GoString × GoString) :=
  match nulSegments hs.ServerAddress with
  | _ :: addr :: rest => .ok (addr, rest.headD [], (rest.drop 1).headD [])
  | _ => .error "no_real_ip"

/-- Modelled from the spec: `IsStatusRequest` is missing; the handshake asks
for status when `next_state == Status`. -/
def ServerBoundHandshake.IsStatusRequest (hs : ServerBoundHandshake) : Bool :=
  hs.NextState == StateStatus

end handshaking

namespace login

/-- Modelled from the spec: the Login Start struct is missing; its first
field is `name`, the only one the router reads. -/
structure ServerLoginStart where
  Name : GoString
deriving DecidableEq, Repr, Inhabited

/-- Modelled from the spec: `UnmarshalServerBoundLoginStart` is missing;
`parse_login_start` decodes the leading name string and ignores what follows
it. -/
def UnmarshalServerBoundLoginStart (pk : protocol.Packet) : Except GoError ServerLoginStart :=
  match protocol.readString pk.Data with
  | .error err => .error err
  | .ok (name, _) => .ok { Name := name }

end login

/-! ### cpn.go -/

namespace proxyproto

/-- The PROXY header of the library go-proxyproto, as far as `process` reads
it: the source address. -/
structure Header where
  SourceAddr : Addr
deriving DecidableEq, Repr, Inhabited

/-- The function `proxyproto.Read` of the library go-proxyproto, seen from
the caller: from the unread bytes of the connection it returns an error, or the
header together with the bytes left unread after it. The wire format of the
header belongs to the library, so `process` takes the reader as an argument. -/
abbrev Reader := List Nat → Except GoError (Header × List Nat)

/-- The PROXY v2 header of the scenario *S5 — PROXY protocol v2*: the
twelve signature bytes, version 2 command PROXY, family TCP4, length 12, source
203.0.113.9, destination 192.0.2.1, source port 54321, destination port
25565. -/
def headerS5 : List Nat :=
  [0x0D, 0x0A, 0x0D, 0x0A, 0x00, 0x0D, 0x0A, 0x51, 0x55, 0x49, 0x54, 0x0A,
   0x21, 0x11, 0x00, 0x0C, 203, 0, 113, 9, 192, 0, 2, 1, 0xD4, 0x31, 0x63, 0xDD]

/-- A reader to run `process` on concrete connections: it knows one header,
`headerS5`, for which it returns the source address `203.0.113.9:54321`, and
rejects every stream that does not start with it. The theorems below hold for
every reader. -/
def readS5 : Reader := fun s =>
  if s.take headerS5.length = headerS5 then
    .ok ({ SourceAddr := ascii "203.0.113.9:54321" }, s.drop headerS5.length)
  else .error "proxyproto: invalid header"

end proxyproto

/-- Modelled from the spec: the struct `ProcessingConn` is missing; these are
the fields cpn.go reads and writes, and `stream` holds the bytes the client has
sent that are not read yet (what `c.Reader()` and `c.ReadPackets` consume). -/
structure ProcessingConn where
  stream : List Nat
  remoteAddr : Addr
  proxyProtocol : Bool
  realIP : Bool
  readPks : List protocol.Packet
  handshake : handshaking.ServerBoundHandshake
  srvHost : GoString
  username : GoString
deriving DecidableEq, Repr, Inhabited

/-- Modelled from the spec: `ReadPackets` is missing; it reads exactly `n`
packets, one after the other, from the unread bytes, and fails when one of
them fails. It returns the packets and the bytes left unread. -/
def ReadPackets (s : List Nat) : Nat → Except GoError (List protocol.Packet × List Nat)
  | 0 => .ok ([], s)
  | n + 1 =>
    match protocol.ReadPacket s with
    | .error err => .error err
    | .ok (pk, rest) =>
      match ReadPackets rest n with
      | .error err => .error err
      | .ok (pks, rest) => .ok (pk :: pks, rest)

/-- How a call of `process` ends: it returns, leaving the connection as
mutated so far and an error or `nil`; or an index is out of range and the
goroutine panics. -/
inductive Outcome where
  | returned (c : ProcessingConn) (err : Option GoError)
  | panicked
deriving DecidableEq, Repr

/-- Lines 40-46 of `process`: with PROXY protocol on, read the header and take
its source address as the remote address. The result is the connection and the
error to return, if any. -/
def process.proxyHeader (proxyprotoRead : proxyproto.Reader) (c : ProcessingConn) :
    ProcessingConn × Option GoError :=
  if c.proxyProtocol then
    match proxyprotoRead c.stream with
    | .error err => (c, some err)
    | .ok (header, rest) => ({ c with remoteAddr := header.SourceAddr, stream := rest }, none)
  else (c, none)

/-- Lines 60-66 of `process`: the server host is the parsed server address,
split from its port by `net.SplitHostPort` when it contains a `:` (byte 58).
The multiple assignment writes `c.srvHost` also when the split fails, with
the empty host that `SplitHostPort` returns beside an error. -/
def process.serverHost (hs : handshaking.ServerBoundHandshake) (c : ProcessingConn) :
    ProcessingConn × Option GoError :=
  let c := { c with srvHost := hs.ParseServerAddress }
  if strings.ContainsByte c.srvHost 58 then
    match net.SplitHostPort hs.ParseServerAddress with
    | .error err => ({ c with srvHost := [] }, some err)
    | .ok (host, _) => ({ c with srvHost := host }, none)
  else (c, none)

/-- Lines 68-74 of `process`: with Real-IP on, parse the forwarded address
out of the handshake and take it as the remote address. -/
def process.forwardedAddr (hs : handshaking.ServerBoundHandshake) (c : ProcessingConn) :
    ProcessingConn × Option GoError :=
  if c.realIP then
    match hs.ParseRealIP with
    | .error err => (c, some err)
    | .ok (addr, _, _) => ({ c with remoteAddr := addr }, none)
  else (c, none)

/-- The function `process` of cpn.go. The connection is mutated through the
pointer, so every `return` hands back the connection as it stands. When a read
fails, the position of the stream is left as it was: the connection is closed
by the caller. -/
def process (proxyprotoRead : proxyproto.Reader) (c : ProcessingConn) : Outcome :=
  match process.proxyHeader proxyprotoRead c with
  | (c, some err) => .returned c (some err)
  | (c, none) =>
  -- pks, err := c.ReadPackets(2)
  match ReadPackets c.stream 2 with
  | .error err => .returned c (some err)
  | .ok (pks, rest) =>
  let c := { c with readPks := pks, stream := rest }
  -- hs, err := handshaking.UnmarshalServerBoundHandshake(pks[0])
  match pks[0]? with
  | none => .panicked
  | some pk0 =>
  match handshaking.UnmarshalServerBoundHandshake pk0 with
  | .error err => .returned c (some err)
  | .ok hs =>
  let c := { c with handshake := hs }
  match process.serverHost hs c with
  | (c, some err) => .returned c (some err)
  | (c, none) =>
  match process.forwardedAddr hs c with
  | (c, some err) => .returned c (some err)
  | (c, none) =>
  -- if hs.IsStatusRequest() { return nil }
  if hs.IsStatusRequest then .returned c none
  else
  -- ls, err := login.UnmarshalServerBoundLoginStart(pks[1])
  match pks[1]? with
  | none => .panicked
  | some pk1 =>
  match login.UnmarshalServerBoundLoginStart pk1 with
  | .error err => .returned c (some err)
  | .ok ls => .returned { c with username := ls.Name } none

/-- The call `process(c)` has come as far as line 58 without an error: the
PROXY step (if any) has succeeded, two packets were read, the first of them
parsed as the handshake `hs`; `c2` is the connection at that point and `pk1`
the second packet. -/
def process.parsedHandshake (proxyprotoRead : proxyproto.Reader) (c : ProcessingConn)
    (c2 : ProcessingConn) (pk1 : protocol.Packet) (hs : handshaking.ServerBoundHandshake) :
    Prop :=
  ∃ c1 pk0 rest,
    process.proxyHeader proxyprotoRead c = (c1, none) ∧
    ReadPackets c1.stream 2 = .ok ([pk0, pk1], rest) ∧
    handshaking.UnmarshalServerBoundHandshake pk0 = .ok hs ∧
    c2 = { c1 with readPks := [pk0, pk1], stream := rest, handshake := hs }

/-- What a run of `CPN.Start` has done when it ends: the connections sent on
`srvChan`, in order; the connections closed, in order; whether the worker
left its loop through the `break` (the inbound channel was closed) or died in
a panic. -/
structure StartTrace where
  srvChan : List ProcessingConn
  closed : List ProcessingConn
  panicked : Bool
deriving DecidableEq, Repr

/-- The method `CPN.Start` of cpn.go, run on the connections that arrive on
`cpnChan` before it is closed: receive a connection; when `process` returns an
error close it and `continue`; otherwise send it on `srvChan`. With the channel
empty and closed the loop `break`s. -/
def CPN.Start (proxyprotoRead : proxyproto.Reader) : List ProcessingConn → StartTrace
  | [] => { srvChan := [], closed := [], panicked := false }
  | c :: cpnChan =>
    match process proxyprotoRead c with
    | .panicked => { srvChan := [], closed := [], panicked := true }
    | .returned c (some _) =>
      let t := CPN.Start proxyprotoRead cpnChan
      { t with closed := c :: t.closed }
    | .returned c none =>
      let t := CPN.Start proxyprotoRead cpnChan
      { t with srvChan := c :: t.srvChan }

/-! ### pkg/config/config.go, pkg/config/provider -/

mutual
/-- A value in a decoded configuration map (`map[string]any`): a boolean, a
number, a text or a nested map. -/
inductive ConfigValue where
  | bool (b : Bool)
  | int (n : Int)
  | str (s : String)
  | map (m : ConfigMap)
/-- A configuration map, `map[string]any`, as its entries. -/
inductive ConfigMap where
  | nil
  | cons (key : String) (value : ConfigValue) (rest : ConfigMap)
end

/-- The map index expression `m[key]`. -/
def ConfigMap.get? : ConfigMap → String → Option ConfigValue
  | .nil, _ => none
  | .cons k v rest, key => if k = key then some v else rest.get? key

/-- The map assignment `m[key] = value`. -/
def ConfigMap.set : ConfigMap → String → ConfigValue → ConfigMap
  | .nil, key, value => .cons key value .nil
  | .cons k v rest, key, value =>
    if k = key then .cons k value rest else .cons k v (rest.set key value)

namespace mergo

/-- The library's `isEmptyValue`: the zero value of the kind, or a map without
entries. -/
def isEmptyValue : ConfigValue → Bool
  | .bool b => !b
  | .int n => n == 0
  | .str s => s == ""
  | .map .nil => true
  | .map (.cons _ _ _) => false

/-- The map case of the library's `deepMerge`, on the values above. For each
key of `src`: a key missing in `dst` is added; when both sides hold a map the
two are merged in turn; otherwise the element of `src` replaces the one of
`dst` if `overwrite` is set or the element of `dst` is empty, and the element
of `dst` stays if not. -/
def deepMerge (overwrite : Bool) : ConfigMap → ConfigMap → ConfigMap
  | dst, .nil => dst
  | dst, .cons key (.map srcMap) rest =>
    match dst.get? key with
    | none => deepMerge overwrite (dst.set key (.map srcMap)) rest
    | some (.map dstMap) =>
      deepMerge overwrite (dst.set key (.map (deepMerge overwrite dstMap srcMap))) rest
    | some dstElement =>
      deepMerge overwrite
        (if overwrite || isEmptyValue dstElement then dst.set key (.map srcMap) else dst) rest
  | dst, .cons key srcElement rest =>
    match dst.get? key with
    | none => deepMerge overwrite (dst.set key srcElement) rest
    | some dstElement =>
      deepMerge overwrite
        (if overwrite || isEmptyValue dstElement then dst.set key srcElement else dst) rest

/-- The call `mergo.Merge(&dst, src)`, with the option `mergo.WithOverride`
when `withOverride` is set: the new `dst`, or an error. On two maps of one type
the library has no error to report. -/
def Merge (dst src : ConfigMap) (withOverride : Bool) : Except GoError ConfigMap :=
  .ok (deepMerge withOverride dst src)

end mergo

namespace provider

/-- The type `provider.Type` of provider.go (`Type` is a keyword here). -/
inductive ProviderType where
  | NilType
  | ConfigType
  | FileType
deriving DecidableEq, Repr

/-- The struct `provider.Data` of provider.go. -/
structure Data where
  Typ : ProviderType
  Config : ConfigMap

/-- The loop of `File.readConfigData`. `files` has, for every path of
`p.filePaths()` in order, what `ReadConfigFile` gives for it: an error, after
which the loop logs and `continue`s, or the map of the file, which is merged
into `cfg` with `mergo.WithOverride`; an error of the merge is logged and the
loop goes on. -/
def File.readConfigData.loop (cfg : ConfigMap) : List (Except GoError ConfigMap) → ConfigMap
  | [] => cfg
  | .error _ :: files => File.readConfigData.loop cfg files
  | .ok fileCfg :: files =>
    match mergo.Merge cfg fileCfg true with
    | .error _ => File.readConfigData.loop cfg files
    | .ok cfg => File.readConfigData.loop cfg files

/-- The method `File.readConfigData` of file.go. -/
def File.readConfigData (files : List (Except GoError ConfigMap)) : Data × Option GoError :=
  ({ Typ := .FileType, Config := File.readConfigData.loop .nil files }, none)

end provider

namespace config

/-- The loop of `config.Read`: merge the data of every provider into
`cfgData`, without `mergo.WithOverride`, and return the first error. -/
def Read.loop (cfgData : ConfigMap) :
    List (provider.ProviderType × ConfigMap) → Except GoError ConfigMap
  | [] => .ok cfgData
  | (_, provData) :: providerData =>
    match mergo.Merge cfgData provData false with
    | .error err => .error err
    | .ok cfgData => Read.loop cfgData providerData

/-- The method `config.Read` of config.go. `providerData` is the Go map
`c.providerData` as the entries the `range` visits, in the order it visits
them; Go leaves the iteration order of a map unspecified, so any order of the
entries can occur. -/
def Read (providerData : List (provider.ProviderType × ConfigMap)) : Except GoError ConfigMap :=
  Read.loop .nil providerData

end config

/-- The configuration `java: {bind: <bind>}`. -/
def javaBind (bind : String) : ConfigMap :=
  .cons "java" (.map (.cons "bind" (.str bind) .nil)) .nil

/-! ### pkg/event/bus.go -/

namespace event

/-- Modelled from the spec: the struct `Event` is missing; bus.go builds an
event from its data and topics and reads its `replyChan`, which is `nil` (here
`none`) unless the event is a request. The payload, of type `any`, is kept as
text. -/
structure Event where
  Data : String
  Topics : List String
  replyChan : Option Nat
deriving DecidableEq, Repr, Inhabited

/-- Modelled from the spec: the constructor `New` is missing; it makes the
event for the data and topics, without a reply channel. -/
def New (data : String) (topics : List String) : Event :=
  { Data := data, Topics := topics, replyChan := none }

/-- A buffered channel `make(chan Event, cap)`: its capacity and the events
waiting in it, oldest first. -/
structure Chan where
  cap : Nat
  buf : List Event
deriving DecidableEq, Repr, Inhabited

/-- The struct `worker`. The channel `out` is unbuffered and holds nothing;
the handler is of any type `Handler`. -/
structure worker (Handler : Type) where
  id : String
  inChan : Chan
  h : Handler

/-- The function `newWorker`, without the two goroutines it starts: the
inbox has room for 100 events. -/
def newWorker {Handler : Type} (id : String) (h : Handler) : worker Handler :=
  { id := id, inChan := { cap := 100, buf := [] }, h := h }

/-- The method `worker.push`: the `select` sends on `w.in` when the buffer
has room and takes the `default` branch, doing nothing, when it is full. -/
def worker.push {Handler : Type} (w : worker Handler) (e : Event) : worker Handler :=
  if w.inChan.buf.length < w.inChan.cap then
    { w with inChan := { w.inChan with buf := w.inChan.buf ++ [e] } }
  else w

/-- The struct `internalBus`: the map `workers` as its entries. -/
structure internalBus (Handler : Type) where
  workers : List (String × worker Handler)

/-- The loop of `sendEvent`: push the event to every worker of the map. -/
def internalBus.sendEvent.loop {Handler : Type} (e : Event) :
    List (String × worker Handler) → List (String × worker Handler)
  | [] => []
  | (id, w) :: workers => (id, w.push e) :: internalBus.sendEvent.loop e workers

/-- The method `internalBus.sendEvent`: the bus after the pushes and the
number of workers. -/
def internalBus.sendEvent {Handler : Type} (b : internalBus Handler) (e : Event) :
    internalBus Handler × Nat :=
  ({ workers := internalBus.sendEvent.loop e b.workers }, b.workers.length)

/-- The method `internalBus.Push`. -/
def internalBus.Push {Handler : Type} (b : internalBus Handler) (data : String)
    (topics : List String) : internalBus Handler :=
  (b.sendEvent (New data topics)).1

end event

/-- A bus with two recipients for concrete runs: `slow`, whose inbox is full
with 100 pending events, and `idle`, whose inbox is empty. -/
def event.twoRecipients : event.internalBus Unit :=
  { workers :=
      [("slow", { event.newWorker "slow" () with
                  inChan := { cap := 100, buf := List.replicate 100 (event.New "tick" []) } }),
       ("idle", event.newWorker "idle" ())] }

/-! ### pkg/event/bus.go: handlers -/

namespace event

/-- Modelled from the spec: the struct `Reply` is missing; bus.go builds a
reply from `Data` and `Err`, and the empty reply `Reply{}` has both `nil`. -/
structure Reply where
  Data : Option String
  Err : Option GoError
deriving DecidableEq, Repr, Inhabited

/-- Modelled from the spec: the method `hasTopic` is missing; an event has a
topic when the topic is among its topics. -/
def Event.hasTopic (e : Event) (topic : String) : Bool :=
  e.Topics.contains topic

/-- One thing a handler does while it handles an event: it calls
`HandleSync` of the synchronous handler it wraps, or it sends a reply on a
reply channel. -/
inductive Effect where
  | handleSync (e : Event)
  | send (replyChan : Nat) (reply : Reply)
deriving DecidableEq, Repr

/-- How a call `h.Handle(e)` ends: it returns after the effects listed, in
order, or it panics after them. -/
inductive Handled where
  | returned (effects : List Effect)
  | panicked (effects : List Effect) (msg : String)
deriving DecidableEq, Repr

/-- Modelled from the spec: the interface `Handler` is missing; a handler is
what it does with an event. -/
abbrev Handler := Event → Handled

/-- Modelled from the spec: the interface `HandlerSync` is missing; a
synchronous handler is the data and the error that `HandleSync` returns for an
event. -/
abbrev HandlerSync := Event → Option String × Option GoError

/-- The fast path of `topicFilterFunc`, for the single topic `topics[0]`. -/
def topicFilterFunc.single (topic : String) (h : Handler) : Handler := fun e =>
  if e.hasTopic topic then h e
  else
    match e.replyChan with
    | some replyChan => .returned [.send replyChan { Data := none, Err := none }]
    | none => .returned []

/-- The general closure of `topicFilterFunc`: the `range` loop over the
topics, which handles the event at the first topic the event has and returns,
and the empty reply after a loop that found none. -/
def topicFilterFunc.loop (h : Handler) (e : Event) : List String → Handled
  | [] =>
    match e.replyChan with
    | some replyChan => .returned [.send replyChan { Data := none, Err := none }]
    | none => .returned []
  | topic :: topics => if e.hasTopic topic then h e else topicFilterFunc.loop h e topics

/-- The function `topicFilterFunc`: the fast path when `len(topics) == 1`,
the general closure otherwise. -/
def topicFilterFunc (topics : List String) (h : Handler) : Handler :=
  match topics with
  | [topic] => topicFilterFunc.single topic h
  | _ => fun e => topicFilterFunc.loop h e topics

/-- How a call of `attachHandler` ends: a worker is attached under a new
identifier; or it panics; or every identifier drawn so far was taken and the
loop is still drawing. -/
inductive Attached where
  | attached (b : internalBus Handler) (id : String)
  | panicked (msg : String)
  | drawing

/-- The loop of `attachHandler`: draw identifiers until one is not a key of
`b.workers`, and store a new worker under it. `uuids` are the identifiers that
`uuid.NewV4` yields, in order. -/
def internalBus.attachHandler.loop (b : internalBus Handler) (h : Handler) :
    List String → Attached
  | [] => .drawing
  | id :: uuids =>
    if (b.workers.map Prod.fst).contains id then internalBus.attachHandler.loop b h uuids
    else .attached { workers := b.workers ++ [(id, newWorker id h)] } id

/-- The method `internalBus.attachHandler`. A `nil` handler is `none`, a
`nil` topic slice is `none`. -/
def internalBus.attachHandler (b : internalBus Handler) (h : Option Handler)
    (topics : Option (List String)) (uuids : List String) : Attached :=
  match h with
  | none => .panicked "AttachHandler called with nil handler"
  | some h =>
    let h := match topics with
      | some topics => topicFilterFunc topics h
      | none => h
    internalBus.attachHandler.loop b h uuids

/-- The closure that `internalBus.Handle` attaches: panic on an event without
reply channel; otherwise call `h.HandleSync(e)` and send its data and error as
the reply. -/
def internalBus.Handle.handler (h : HandlerSync) : Handler := fun e =>
  match e.replyChan with
  | none => .panicked [] "attached to async topic"
  | some replyChan =>
    let (data, err) := h e
    .returned [.handleSync e, .send replyChan { Data := data, Err := err }]

/-- The method `internalBus.Handle`; the variadic `topics` is `none` when the
call has no topic argument. -/
def internalBus.Handle (b : internalBus Handler) (h : HandlerSync)
    (topics : Option (List String)) (uuids : List String) : Attached :=
  b.attachHandler (some (internalBus.Handle.handler h)) topics uuids

/-- A synchronous handler for concrete runs: it allows every event. -/
def allowAll : HandlerSync := fun _ => (some "allow", none)

/-- A bus for concrete runs with one recipient, `idle`, that allows every
request. -/
def oneRecipient : internalBus Handler :=
  { workers := [("idle", newWorker "idle" (internalBus.Handle.handler allowAll))] }

/-- A request for concrete runs, with the reply channel 7. -/
def joinRequest : Event :=
  { Data := "Steve", Topics := ["PrePlayerJoin"], replyChan := some 7 }

end event

/-! ### pkg/config/provider/file.go: reading and writing a config file -/

namespace filepath

/-- The loop of `filepath.Ext`, over the characters of the path from the last
one backwards: stop without extension at a path separator (`/`), stop with the
suffix at a dot. `suffix` is the part of the path already passed. -/
def Ext.loop : List Char → List Char → List Char
  | [], _ => []
  | c :: before, suffix =>
    if c = '/' then []
    else if c = '.' then '.' :: suffix
    else Ext.loop before (c :: suffix)

/-- The function `filepath.Ext` of the Go standard library: the suffix of the
last element of the path that starts at its last dot, empty when it has no
dot. -/
def Ext (path : String) : String :=
  ⟨Ext.loop path.data.reverse []⟩

/-- The loop of `filepath.Split`, over the characters of the path from the
last one backwards, up to the last separator. -/
def Split.loop : List Char → List Char → List Char × List Char
  | [], file => ([], file)
  | c :: before, file =>
    if c = '/' then ((c :: before).reverse, file) else Split.loop before (c :: file)

/-- The function `filepath.Split` of the Go standard library: the path up to
and with its last separator, and the rest. -/
def Split (path : String) : String × String :=
  (⟨(Split.loop path.data.reverse []).1⟩, ⟨(Split.loop path.data.reverse []).2⟩)

end filepath

/-- The slice expression `s[1:]` on a string that is empty or starts with a
one-byte character: `none` is the run-time panic on the empty string. -/
def sliceFrom1 (s : String) : Option String :=
  match s.data with
  | [] => none
  | _ :: cs => some ⟨cs⟩

namespace provider

/-- The calls of the packages `os` and `path/filepath` that touch the file
system, and `filepath.Join`, whose result is only handed to them. `Lstat` gives
whether the mode of the file has `os.ModeSymlink`; `WriteFile` gives the error,
if any. -/
structure FileSystem where
  EvalSymlinks : String → Except GoError String
  Lstat : String → Except GoError Bool
  Readlink : String → Except GoError String
  ReadFile : String → Except GoError (List Nat)
  Join : String → String → String
  WriteFile : String → List Nat → Option GoError

/-- The decoders and encoders of `encoding/json` and `gopkg.in/yaml.v3` as
file.go calls them, on configuration maps. -/
structure Codecs where
  jsonUnmarshal : List Nat → Except GoError ConfigMap
  yamlUnmarshal : List Nat → Except GoError ConfigMap
  jsonMarshalIndent : ConfigMap → Except GoError (List Nat)
  yamlEncode : ConfigMap → Except GoError (List Nat)

/-- How a call ends: it returns a value and an error or `nil`, or it
panics. -/
inductive Ran (α : Type) where
  | returned (value : α) (err : Option GoError)
  | panicked (msg : String)

/-- The function `ReadConfigFile` of file.go. The value returned is what the
call has stored in `v`, `none` when it has stored nothing. -/
def ReadConfigFile (fs : FileSystem) (codecs : Codecs) (name : String) :
    Ran (Option ConfigMap) :=
  match fs.EvalSymlinks name with
  | .error err => .returned none (some err)
  | .ok name =>
  match fs.Lstat name with
  | .error err => .returned none (some err)
  | .ok isSymlink =>
  let link : Except GoError String := if isSymlink then fs.Readlink name else .ok name
  match link with
  | .error err => .returned none (some err)
  | .ok name =>
  match fs.ReadFile name with
  | .error err => .returned none (some err)
  | .ok bb =>
  -- ext := filepath.Ext(name)[1:]
  match sliceFrom1 (filepath.Ext name) with
  | none => .panicked "runtime error: slice bounds out of range [1:0]"
  | some ext =>
    if ext = "json" then
      match codecs.jsonUnmarshal bb with
      | .error err => .returned none (some err)
      | .ok v => .returned (some v) none
    else if ext = "yml" ∨ ext = "yaml" then
      match codecs.yamlUnmarshal bb with
      | .error err => .returned none (some err)
      | .ok v => .returned (some v) none
    else .returned none (some "unsupported file type")

/-- The function `WriteConfigFile` of file.go. The value returned is the call
of `os.WriteFile` made, its path and bytes, `none` when none was made. -/
def WriteConfigFile (fs : FileSystem) (codecs : Codecs) (path : String) (cfg : ConfigMap) :
    Ran (Option (String × List Nat)) :=
  let (dir, file) := filepath.Split path
  match fs.Lstat dir with
  | .error err => .returned none (some err)
  | .ok isSymlink =>
  let link : Except GoError String := if isSymlink then fs.Readlink dir else .ok dir
  match link with
  | .error err => .returned none (some err)
  | .ok dir =>
  let path := fs.Join dir file
  -- switch ext := filepath.Ext(file)[1:]; ext
  match sliceFrom1 (filepath.Ext file) with
  | none => .panicked "runtime error: slice bounds out of range [1:0]"
  | some ext =>
    if ext = "json" then
      match codecs.jsonMarshalIndent cfg with
      | .error err => .returned none (some err)
      | .ok bb => .returned (some (path, bb)) (fs.WriteFile path bb)
    else if ext = "yml" ∨ ext = "yaml" then
      match codecs.yamlEncode cfg with
      | .error err => .returned none (some err)
      | .ok bb => .returned (some (path, bb)) (fs.WriteFile path bb)
    else .returned none (some "unsupported file type")

/-- A file system for concrete runs: every path is a regular file or
directory that can be read and written, no path is a symbolic link, every file
is empty. -/
def plainFS : FileSystem :=
  { EvalSymlinks := fun name => .ok name
    Lstat := fun _ => .ok false
    Readlink := fun name => .ok name
    ReadFile := fun _ => .ok []
    Join := fun dir file => dir ++ file
    WriteFile := fun _ _ => none }

/-- Codecs for concrete runs, which only tell JSON from YAML: the decoders
return the map `java: {bind: json}` or `java: {bind: yaml}`, the encoders the
bytes of `json` or `yaml`. -/
def tagCodecs : Codecs :=
  { jsonUnmarshal := fun _ => .ok (javaBind "json")
    yamlUnmarshal := fun _ => .ok (javaBind "yaml")
    jsonMarshalIndent := fun _ => .ok (ascii "json")
    yamlEncode := fun _ => .ok (ascii "yaml") }

end provider

/-! ### internal/app/infrared: message templates

The functions `PlayerMessageTemplates` and `ExecuteMessageTemplate` are called
by conn_test.go; their source is not among the sources. -/

/-- Modelled from the spec: the interface `Player` is missing; these are the
five values a template can show: the username, the remote address, the local
address, the domain pattern that matched and the gateway id. -/
structure Player where
  Username : String
  RemoteAddr : String
  LocalAddr : String
  MatchedAddr : String
  GatewayID : String
deriving DecidableEq, Repr, Inhabited

/-- The token for a name, the name between two pairs of braces. -/
def templateToken (name : String) : String :=
  "\x7b\x7b" ++ name ++ "\x7d\x7d"

/-- Modelled from the spec: `PlayerMessageTemplates` is missing. The
recognised tokens are `{{username}}`, `{{remoteAddress}}`, `{{localAddress}}`,
`{{matchedAddress}}` and `{{gatewayId}}`; each is paired with the value of the
player it stands for. -/
def PlayerMessageTemplates (p : Player) : List (String × String) :=
  [(templateToken "username", p.Username),
   (templateToken "remoteAddress", p.RemoteAddr),
   (templateToken "localAddress", p.LocalAddr),
   (templateToken "matchedAddress", p.MatchedAddr),
   (templateToken "gatewayId", p.GatewayID)]

/-- The first template whose token the text starts with: its value and the
length of its token. An empty token matches nothing. -/
def matchTemplate : List (String × String) → List Char → Option (String × Nat)
  | [], _ => none
  | (token, value) :: tmpls, s =>
    if token.data ≠ [] ∧ token.data.isPrefixOf s then some (value, token.data.length)
    else matchTemplate tmpls s

/-- One pass over the text from left to right: where a token starts, put its
value and skip the token; copy every other character. `skip` counts the
characters of a token still to be skipped. -/
def ExecuteMessageTemplate.scan (tmpls : List (String × String)) : Nat → List Char → List Char
  | _, [] => []
  | skip + 1, _ :: cs => ExecuteMessageTemplate.scan tmpls skip cs
  | 0, c :: cs =>
    match matchTemplate tmpls (c :: cs) with
    | some (value, len) => value.data ++ ExecuteMessageTemplate.scan tmpls (len - 1) cs
    | none => c :: ExecuteMessageTemplate.scan tmpls 0 cs

/-- Modelled from the spec: `ExecuteMessageTemplate` is missing. Template
substitution: the recognised tokens of the message are replaced by their
values, unknown tokens and all other text pass through unchanged; a value that
has been put in is not looked at again. -/
def ExecuteMessageTemplate (msg : String) (tmpls : List (String × String)) : String :=
  ⟨ExecuteMessageTemplate.scan tmpls 0 msg.data⟩

/-- The shape of a recognised token: two opening braces, then a body without
an opening brace. -/
def TokenShaped (w : List Char) : Prop :=
  ∃ body, w = '\x7b' :: '\x7b' :: body ∧ body ≠ [] ∧ '\x7b' ∉ body

/-- The player that the mock of conn_test.go stands for. -/
def mockPlayer : Player :=
  { Username := "username", RemoteAddr := "ip:port", LocalAddr := "ip:port",
    MatchedAddr := "matchedAddr", GatewayID := "gatewayId" }

/-! ### Concrete status responses -/

/-- A full override for concrete runs: every pointer field set, one player
sample. -/
def fullOverride : OverrideServerStatusResponse :=
  { VersionName := some "Infrared", ProtocolNumber := some 762, MaxPlayerCount := some 20,
    PlayerCount := some 3, PlayerSamples := some [{ Name := "Steve", UUID := "8667ba71" }],
    Icon := some "data:image/png;base64,AAAA", MOTD := some "hi" }

/-- A backend response for concrete runs. -/
def backendA : status.ResponseJSON :=
  { Version := { Name := "Paper 1.19.4", Protocol := 762 }
    Players := { Max := 100, Online := 57, Sample := none }
    Description := { Text := "A Minecraft Server" }
    Favicon := "" }

/-- Another backend response for concrete runs, different in every field. -/
def backendB : status.ResponseJSON :=
  { Version := { Name := "Vanilla 1.8", Protocol := 47 }
    Players := { Max := 5, Online := 0, Sample := some [{ Name := "Alex", ID := "ec561538" }] }
    Description := { Text := "offline" }
    Favicon := "data:image/png;base64,BBBB" }

/-! ### Concrete connections -/

/-- A connection as the listener hands it over: nothing read, nothing parsed. -/
def accepted (stream : List Nat) (remoteAddr : Addr) (proxyProtocol realIP : Bool) :
    ProcessingConn :=
  { stream := stream, remoteAddr := remoteAddr, proxyProtocol := proxyProtocol,
    realIP := realIP, readPks := [], handshake := default, srvHost := [], username := [] }

/-- The wire bytes of a handshake packet for protocol version 762 (`fa 05`) and
port 25565 (`63 dd`), with the given address (shorter than 121 bytes) and next
state (below 128); the scenario *S1* is `handshakeBytes (ascii "localhost") 1`. -/
def handshakeBytes (address : GoString) (nextState : Nat) : List Nat :=
  [address.length + 7, 0x00, 0xfa, 0x05, address.length] ++ address ++ [0x63, 0xdd, nextState]

/-- The wire bytes of a Status Request packet, `01 00`. -/
def statusRequestBytes : List Nat := [0x01, 0x00]

/-- The wire bytes of a Login Start packet with the name `Steve`. -/
def loginStartSteveBytes : List Nat := [0x07, 0x00, 0x05] ++ ascii "Steve"

/-- The address of a client, as accepted. -/
def peerAddr : Addr := ascii "198.51.100.7:40000"

/-- The wire body of the handshake of `handshakeBytes`, as the packet reader
returns it. -/
def handshakePacket (address : GoString) (nextState : Nat) : protocol.Packet :=
  ⟨0, [0xfa, 0x05, address.length] ++ address ++ [0x63, 0xdd, nextState]⟩

/-- A connection after `process`, with all of its stream read: the two
replay packets are the handshake for `address` and `nextState` and the packet
`second`; the other fields as given. -/
def processed (address : GoString) (nextState : Nat) (second : protocol.Packet)
    (srvHost : GoString) (remoteAddr : Addr) (proxyProtocol realIP : Bool)
    (username : GoString) : ProcessingConn :=
  { stream := [], remoteAddr := remoteAddr, proxyProtocol := proxyProtocol, realIP := realIP,
    readPks := [handshakePacket address nextState, second],
    handshake := ⟨762, address, 25565, nextState⟩, srvHost := srvHost, username := username }

/-! ## Theorems -/

/-! ### Status responses -/

theorem fill_loop_eq_map (d : status.PlayerSampleJSON) (l : List PlayerSample) :
    ∀ pre : List status.PlayerSampleJSON,
      (l.enumFrom pre.length).foldl
        (fun ss is => ss.set is.1 { Name := is.2.Name, ID := is.2.UUID })
        (pre ++ List.replicate l.length d) = pre ++ l.map sampleEntry := by
  induction l with
  | nil => intro pre; simp
  | cons x xs ih =>
    intro pre
    have h := ih (pre ++ [sampleEntry x])
    simp only [List.length_append, List.length_singleton, List.append_assoc,
      List.singleton_append] at h
    simp only [List.enumFrom_cons, List.foldl_cons, List.length_cons, List.replicate_succ,
      List.map_cons]
    rw [List.set_append_right _ _ (Nat.le_refl _)]
    simpa [sampleEntry] using h

theorem PlayerSampleJSON_eq_map (ps : PlayerSamples) :
    PlayerSamples.PlayerSampleJSON ps = (PlayerSamples.elems ps).map sampleEntry := by
  have h := fill_loop_eq_map { Name := "", ID := "" } (PlayerSamples.elems ps) []
  simpa [PlayerSamples.PlayerSampleJSON, List.enum] using h

/-- C4: every field of `r.ResponseJSON(resp, opts...)` is decided by its own
override field alone: favicon, version name, protocol number, max players,
online players and player sample are the override's value when that field is
set and `resp`'s value when it is not; the description is `resp`'s when MOTD is
unset and otherwise has the override MOTD with the options applied first to
last as its text; an override with no field set returns `resp` itself. -/
theorem C4_override_response_fieldwise (r : OverrideServerStatusResponse)
    (resp : status.ResponseJSON) (opts : List MOTDOption) :
    (r.ResponseJSON resp opts).Favicon = r.Icon.getD resp.Favicon ∧
    (r.ResponseJSON resp opts).Version.Name = r.VersionName.getD resp.Version.Name ∧
    (r.ResponseJSON resp opts).Version.Protocol
      = r.ProtocolNumber.getD resp.Version.Protocol ∧
    (r.ResponseJSON resp opts).Players.Max = r.MaxPlayerCount.getD resp.Players.Max ∧
    (r.ResponseJSON resp opts).Players.Online = r.PlayerCount.getD resp.Players.Online ∧
    (r.ResponseJSON resp opts).Players.Sample
      = (match r.PlayerSamples with
         | some ps => some (ps.map fun s => { Name := s.Name, ID := s.UUID })
         | none => resp.Players.Sample) ∧
    (r.ResponseJSON resp opts).Description
      = (match r.MOTD with
         | some m => { Text := opts.foldl (fun text opt => opt text) m }
         | none => resp.Description) ∧
    (r.VersionName = none → r.ProtocolNumber = none → r.MaxPlayerCount = none →
      r.PlayerCount = none → r.PlayerSamples = none → r.Icon = none → r.MOTD = none →
      r.ResponseJSON resp opts = resp) := by
  obtain ⟨vn, pn, mx, pc, ps, ic, motd⟩ := r
  have hs : ∀ l : List PlayerSample,
      PlayerSamples.PlayerSampleJSON (some l)
        = l.map fun s => ({ Name := s.Name, ID := s.UUID } : status.PlayerSampleJSON) := by
    intro l
    rw [PlayerSampleJSON_eq_map]
    rfl
  refine ⟨?_, ?_, ?_, ?_, ?_, ?_, ?_, ?_⟩
  · cases vn <;> cases pn <;> cases mx <;> cases pc <;> cases ps <;> cases ic <;>
      cases motd <;> rfl
  · cases vn <;> cases pn <;> cases mx <;> cases pc <;> cases ps <;> cases ic <;>
      cases motd <;> rfl
  · cases vn <;> cases pn <;> cases mx <;> cases pc <;> cases ps <;> cases ic <;>
      cases motd <;> rfl
  · cases vn <;> cases pn <;> cases mx <;> cases pc <;> cases ps <;> cases ic <;>
      cases motd <;> rfl
  · cases vn <;> cases pn <;> cases mx <;> cases pc <;> cases ps <;> cases ic <;>
      cases motd <;> rfl
  · cases vn <;> cases pn <;> cases mx <;> cases pc <;> cases ps <;> cases ic <;>
      cases motd <;> simp [OverrideServerStatusResponse.ResponseJSON, hs]
  · cases vn <;> cases pn <;> cases mx <;> cases pc <;> cases ps <;> cases ic <;>
      cases motd <;> rfl
  · intro h1 h2 h3 h4 h5 h6 h7
    simp only at h1 h2 h3 h4 h5 h6 h7
    subst h1 h2 h3 h4 h5 h6 h7
    rfl

/-- C5: `r.ResponseJSON()` carries every field of `r` to its JSON place, and
the sample list has the length of `PlayerSamples`, its i-th entry holding the
i-th sample's name and UUID. -/
theorem C5_server_status_response_fields (r : ServerStatusResponse) :
    r.ResponseJSON.Version.Name = r.VersionName ∧
    r.ResponseJSON.Version.Protocol = r.ProtocolNumber ∧
    r.ResponseJSON.Players.Max = r.MaxPlayerCount ∧
    r.ResponseJSON.Players.Online = r.PlayerCount ∧
    r.ResponseJSON.Favicon = r.Icon ∧
    r.ResponseJSON.Description.Text = r.MOTD ∧
    ∃ sample : List status.PlayerSampleJSON,
      r.ResponseJSON.Players.Sample = some sample ∧
      sample.length = (PlayerSamples.elems r.PlayerSamples).length ∧
      ∀ i : Nat, ∀ s : PlayerSample, (PlayerSamples.elems r.PlayerSamples)[i]? = some s →
        sample[i]? = some { Name := s.Name, ID := s.UUID } := by
  refine ⟨rfl, rfl, rfl, rfl, rfl, rfl, ?_⟩
  refine ⟨PlayerSamples.PlayerSampleJSON r.PlayerSamples, rfl, ?_, ?_⟩
  · rw [PlayerSampleJSON_eq_map, List.length_map]
  · intro i s hi
    rw [PlayerSampleJSON_eq_map, List.getElem?_map, hi]
    rfl

/-! ### Connection processing -/

theorem ReadPackets_two {s : List Nat} {pks : List protocol.Packet} {rest : List Nat}
    (h : ReadPackets s 2 = .ok (pks, rest)) :
    ∃ p0 p1 s1, protocol.ReadPacket s = .ok (p0, s1) ∧ protocol.ReadPacket s1 = .ok (p1, rest) ∧
      pks = [p0, p1] := by
  simp only [ReadPackets] at h
  cases h0 : protocol.ReadPacket s with
  | error e => simp [h0] at h
  | ok v0 =>
    obtain ⟨p0, s1⟩ := v0
    cases h1 : protocol.ReadPacket s1 with
    | error e => simp [h0, h1] at h
    | ok v1 =>
      obtain ⟨p1, s2⟩ := v1
      simp [h0, h1] at h
      exact ⟨p0, p1, s1, rfl, h.2 ▸ h1, h.1.symm⟩

theorem proxyHeader_ok {pr : proxyproto.Reader} {c c1 : ProcessingConn}
    (h : process.proxyHeader pr c = (c1, none)) :
    (c.proxyProtocol = false ∧ c1 = c) ∨
      (c.proxyProtocol = true ∧ ∃ hd r, pr c.stream = .ok (hd, r) ∧
        c1 = { c with remoteAddr := hd.SourceAddr, stream := r }) := by
  unfold process.proxyHeader at h
  cases hp : c.proxyProtocol with
  | false => simp [hp] at h; exact Or.inl ⟨rfl, h.symm⟩
  | true =>
    cases hr : pr c.stream with
    | error e => simp [hp, hr] at h
    | ok v =>
      obtain ⟨hd, r⟩ := v
      simp [hp, hr] at h
      exact Or.inr ⟨rfl, hd, r, rfl, h.symm⟩

theorem proxyHeader_frame (pr : proxyproto.Reader) (c : ProcessingConn) :
    (process.proxyHeader pr c).1.realIP = c.realIP ∧
    (process.proxyHeader pr c).1.proxyProtocol = c.proxyProtocol ∧
    (process.proxyHeader pr c).1.username = c.username ∧
    (process.proxyHeader pr c).1.readPks = c.readPks := by
  cases hp : c.proxyProtocol <;> cases hr : pr c.stream <;>
    simp [process.proxyHeader, hp, hr]

theorem serverHost_ok {hs : handshaking.ServerBoundHandshake} {c c1 : ProcessingConn}
    (h : process.serverHost hs c = (c1, none)) :
    ∃ host, c1 = { c with srvHost := host } ∧
      ((strings.ContainsByte hs.ParseServerAddress 58 = false ∧ host = hs.ParseServerAddress) ∨
        (strings.ContainsByte hs.ParseServerAddress 58 = true ∧
          ∃ port, net.SplitHostPort hs.ParseServerAddress = .ok (host, port))) := by
  unfold process.serverHost at h
  cases hc : strings.ContainsByte hs.ParseServerAddress 58 with
  | false => simp [hc] at h; exact ⟨_, h.symm, Or.inl ⟨rfl, rfl⟩⟩
  | true =>
    cases hr : net.SplitHostPort hs.ParseServerAddress with
    | error e => simp [hc, hr] at h
    | ok v =>
      obtain ⟨host, port⟩ := v
      simp [hc, hr] at h
      exact ⟨host, h.symm, Or.inr ⟨rfl, port, rfl⟩⟩

theorem serverHost_frame (hs : handshaking.ServerBoundHandshake) (c : ProcessingConn) :
    ∃ host, (process.serverHost hs c).1 = { c with srvHost := host } := by
  cases hc : strings.ContainsByte hs.ParseServerAddress 58 with
  | false => exact ⟨hs.ParseServerAddress, by simp [process.serverHost, hc]⟩
  | true =>
    cases hr : net.SplitHostPort hs.ParseServerAddress with
    | error e => exact ⟨[], by simp [process.serverHost, hc, hr]⟩
    | ok v => exact ⟨v.1, by simp [process.serverHost, hc, hr]⟩

theorem forwardedAddr_ok {hs : handshaking.ServerBoundHandshake} {c c1 : ProcessingConn}
    (h : process.forwardedAddr hs c = (c1, none)) :
    (c.realIP = false ∧ c1 = c) ∨
      (c.realIP = true ∧ ∃ addr uuid sig, hs.ParseRealIP = .ok (addr, uuid, sig) ∧
        c1 = { c with remoteAddr := addr }) := by
  unfold process.forwardedAddr at h
  cases hp : c.realIP with
  | false => simp [hp] at h; exact Or.inl ⟨rfl, h.symm⟩
  | true =>
    cases hr : hs.ParseRealIP with
    | error e => simp [hp, hr] at h
    | ok v =>
      obtain ⟨addr, uuid, sig⟩ := v
      simp [hp, hr] at h
      exact Or.inr ⟨rfl, addr, uuid, sig, rfl, h.symm⟩

theorem forwardedAddr_off (hs : handshaking.ServerBoundHandshake) (c : ProcessingConn)
    (h : c.realIP = false) : process.forwardedAddr hs c = (c, none) := by
  simp [process.forwardedAddr, h]

/-- What a call of `process` that returns `nil` has done, step by step. -/
theorem process_ok_inv {pr : proxyproto.Reader} {c c' : ProcessingConn}
    (h : process pr c = .returned c' none) :
    ∃ (c1 c3 c4 : ProcessingConn) (p0 p1 : protocol.Packet) (rest : List Nat)
      (hs : handshaking.ServerBoundHandshake),
      process.proxyHeader pr c = (c1, none) ∧
      ReadPackets c1.stream 2 = .ok ([p0, p1], rest) ∧
      handshaking.UnmarshalServerBoundHandshake p0 = .ok hs ∧
      process.serverHost hs { c1 with readPks := [p0, p1], stream := rest, handshake := hs }
        = (c3, none) ∧
      process.forwardedAddr hs c3 = (c4, none) ∧
      ((hs.IsStatusRequest = true ∧ c' = c4) ∨
        (hs.IsStatusRequest = false ∧ ∃ name,
          login.UnmarshalServerBoundLoginStart p1 = .ok { Name := name } ∧
          c' = { c4 with username := name })) := by
  unfold process at h
  cases h1 : process.proxyHeader pr c with
  | mk c1 e1 =>
  cases e1 with
  | some e => simp [h1] at h
  | none =>
  cases h2 : ReadPackets c1.stream 2 with
  | error e => simp [h1, h2] at h
  | ok v =>
  obtain ⟨pks, rest⟩ := v
  obtain ⟨p0, p1, s1, -, -, rfl⟩ := ReadPackets_two h2
  cases h3 : handshaking.UnmarshalServerBoundHandshake p0 with
  | error e => simp [h1, h2, h3] at h
  | ok hs =>
  cases h4 : process.serverHost hs
      { c1 with readPks := [p0, p1], stream := rest, handshake := hs } with
  | mk c3 e3 =>
  cases e3 with
  | some e => simp [h1, h2, h3, h4] at h
  | none =>
  cases h5 : process.forwardedAddr hs c3 with
  | mk c4 e4 =>
  cases e4 with
  | some e => simp [h1, h2, h3, h4, h5] at h
  | none =>
  refine ⟨c1, c3, c4, p0, p1, rest, hs, rfl, h2, h3, h4, h5, ?_⟩
  cases h6 : hs.IsStatusRequest with
  | true =>
    simp [h1, h2, h3, h4, h5, h6] at h
    exact Or.inl ⟨rfl, h.symm⟩
  | false =>
    cases h7 : login.UnmarshalServerBoundLoginStart p1 with
    | error e => simp [h1, h2, h3, h4, h5, h6, h7] at h
    | ok ls =>
      simp [h1, h2, h3, h4, h5, h6, h7] at h
      exact Or.inr ⟨rfl, ls.Name, rfl, h.symm⟩

/-- The fields of the connection after a call of `process` that returns
`nil`, each traced to the step that wrote it. -/
theorem process_ok_fields {pr : proxyproto.Reader} {c c' : ProcessingConn}
    (h : process pr c = .returned c' none) :
    ∃ (c1 : ProcessingConn) (p0 p1 : protocol.Packet) (s1 rest : List Nat)
      (hs : handshaking.ServerBoundHandshake) (host : GoString) (addr : Addr) (name : GoString),
      process.proxyHeader pr c = (c1, none) ∧
      protocol.ReadPacket c1.stream = .ok (p0, s1) ∧
      protocol.ReadPacket s1 = .ok (p1, rest) ∧
      handshaking.UnmarshalServerBoundHandshake p0 = .ok hs ∧
      ((strings.ContainsByte hs.ParseServerAddress 58 = false ∧ host = hs.ParseServerAddress) ∨
        (strings.ContainsByte hs.ParseServerAddress 58 = true ∧
          ∃ port, net.SplitHostPort hs.ParseServerAddress = .ok (host, port))) ∧
      ((c.realIP = false ∧ addr = c1.remoteAddr) ∨
        (c.realIP = true ∧ ∃ uuid sig, hs.ParseRealIP = .ok (addr, uuid, sig))) ∧
      ((hs.IsStatusRequest = true ∧ name = c.username) ∨
        (hs.IsStatusRequest = false ∧
          login.UnmarshalServerBoundLoginStart p1 = .ok { Name := name })) ∧
      c' = { stream := rest, remoteAddr := addr, proxyProtocol := c.proxyProtocol,
             realIP := c.realIP, readPks := [p0, p1], handshake := hs, srvHost := host,
             username := name } := by
  obtain ⟨c1, c3, c4, p0, p1, rest, hs, h1, h2, h3, h4, h5, h6⟩ := process_ok_inv h
  obtain ⟨q0, q1, s1, hq0, hq1, hq⟩ := ReadPackets_two h2
  simp only [List.cons.injEq, and_true] at hq
  obtain ⟨rfl, rfl⟩ := hq
  obtain ⟨host, rfl, hhost⟩ := serverHost_ok h4
  have hf := proxyHeader_frame pr c
  have h1c := h1
  rw [h1] at hf
  simp only at hf
  obtain ⟨hf1, hf2, hf3, -⟩ := hf
  rcases forwardedAddr_ok h5 with ⟨hr, rfl⟩ | ⟨hr, addr, uuid, sig, hp, rfl⟩
  · simp only at hr
    rcases h6 with ⟨hst, rfl⟩ | ⟨hst, name, hl, rfl⟩
    · exact ⟨c1, p0, p1, s1, rest, hs, host, c1.remoteAddr, c.username, h1c, hq0, hq1, h3, hhost,
        Or.inl ⟨hf1 ▸ hr, rfl⟩, Or.inl ⟨hst, rfl⟩, by simp [hf1, hf2, hf3]⟩
    · exact ⟨c1, p0, p1, s1, rest, hs, host, c1.remoteAddr, name, h1c, hq0, hq1, h3, hhost,
        Or.inl ⟨hf1 ▸ hr, rfl⟩, Or.inr ⟨hst, hl⟩, by simp [hf1, hf2]⟩
  · simp only at hr
    rcases h6 with ⟨hst, rfl⟩ | ⟨hst, name, hl, rfl⟩
    · exact ⟨c1, p0, p1, s1, rest, hs, host, addr, c.username, h1c, hq0, hq1, h3, hhost,
        Or.inr ⟨hf1 ▸ hr, uuid, sig, hp⟩, Or.inl ⟨hst, rfl⟩, by simp [hf1, hf2, hf3]⟩
    · exact ⟨c1, p0, p1, s1, rest, hs, host, addr, name, h1c, hq0, hq1, h3, hhost,
        Or.inr ⟨hf1 ▸ hr, uuid, sig, hp⟩, Or.inr ⟨hst, hl⟩, by simp [hf1, hf2]⟩


theorem loginStart_name {pk : protocol.Packet} {name : GoString}
    (h : login.UnmarshalServerBoundLoginStart pk = .ok { Name := name }) :
    ∃ rest, protocol.readString pk.Data = .ok (name, rest) := by
  unfold login.UnmarshalServerBoundLoginStart at h
  cases hr : protocol.readString pk.Data with
  | error e => simp [hr] at h
  | ok v =>
    obtain ⟨n, rest⟩ := v
    simp [hr] at h
    exact ⟨rest, by rw [h]⟩

theorem ParseRealIP_segments {hs : handshaking.ServerBoundHandshake} {v : Addr × GoString × GoString}
    (h : hs.ParseRealIP = .ok v) : 2 ≤ (handshaking.nulSegments hs.ServerAddress).length := by
  unfold handshaking.ServerBoundHandshake.ParseRealIP at h
  split at h
  · rename_i heq
    rw [heq]
    simp
  · simp at h

/-- Whatever `process` returns, with Real-IP off the remote address is the one
the PROXY step left. -/
theorem process_returned_remoteAddr {pr : proxyproto.Reader} {c c' : ProcessingConn}
    {err : Option GoError} (h : process pr c = .returned c' err) (hreal : c.realIP = false) :
    c'.remoteAddr = (process.proxyHeader pr c).1.remoteAddr := by
  have hf := (proxyHeader_frame pr c).1
  unfold process at h
  cases h1 : process.proxyHeader pr c with
  | mk c1 e1 =>
  rw [h1] at hf
  simp only at hf
  cases e1 with
  | some e => simp [h1] at h; rw [← h.1]
  | none =>
  cases h2 : ReadPackets c1.stream 2 with
  | error e => simp [h1, h2] at h; rw [← h.1]
  | ok v =>
  obtain ⟨pks, rest⟩ := v
  obtain ⟨p0, p1, s1, -, -, rfl⟩ := ReadPackets_two h2
  cases h3 : handshaking.UnmarshalServerBoundHandshake p0 with
  | error e => simp [h1, h2, h3] at h; rw [← h.1]
  | ok hs =>
  obtain ⟨host, hh⟩ := serverHost_frame hs
    { c1 with readPks := [p0, p1], stream := rest, handshake := hs }
  cases h4 : process.serverHost hs
      { c1 with readPks := [p0, p1], stream := rest, handshake := hs } with
  | mk c3 e3 =>
  rw [h4] at hh
  simp only at hh
  subst hh
  cases e3 with
  | some e => simp [h1, h2, h3, h4] at h; rw [← h.1]
  | none =>
  have h5 := forwardedAddr_off hs
    { c1 with readPks := [p0, p1], stream := rest, handshake := hs, srvHost := host }
    (hf.trans hreal)
  cases h6 : hs.IsStatusRequest with
  | true => simp [h1, h2, h3, h4, h5, h6] at h; rw [← h.1]
  | false =>
    cases h7 : login.UnmarshalServerBoundLoginStart p1 with
    | error e => simp [h1, h2, h3, h4, h5, h6, h7] at h; rw [← h.1]
    | ok ls => simp [h1, h2, h3, h4, h5, h6, h7] at h; rw [← h.1]

/-- With the packet reader of the spec `process` never indexes out of range:
`ReadPackets(2)` yields two packets or an error. -/
theorem process_never_panics (pr : proxyproto.Reader) (c : ProcessingConn) :
    process pr c ≠ .panicked := by
  intro h
  unfold process at h
  cases h1 : process.proxyHeader pr c with
  | mk c1 e1 =>
  cases e1 with
  | some e => simp [h1] at h
  | none =>
  cases h2 : ReadPackets c1.stream 2 with
  | error e => simp [h1, h2] at h
  | ok v =>
  obtain ⟨pks, rest⟩ := v
  obtain ⟨p0, p1, s1, -, -, rfl⟩ := ReadPackets_two h2
  cases h3 : handshaking.UnmarshalServerBoundHandshake p0 with
  | error e => simp [h1, h2, h3] at h
  | ok hs =>
  cases h4 : process.serverHost hs
      { c1 with readPks := [p0, p1], stream := rest, handshake := hs } with
  | mk c3 e3 =>
  cases e3 with
  | some e => simp [h1, h2, h3, h4] at h
  | none =>
  cases h5 : process.forwardedAddr hs c3 with
  | mk c4 e4 =>
  cases e4 with
  | some e => simp [h1, h2, h3, h4, h5] at h
  | none =>
  cases h6 : hs.IsStatusRequest with
  | true => simp [h1, h2, h3, h4, h5, h6] at h
  | false =>
    cases h7 : login.UnmarshalServerBoundLoginStart p1 with
    | error e => simp [h1, h2, h3, h4, h5, h6, h7] at h
    | ok ls => simp [h1, h2, h3, h4, h5, h6, h7] at h


theorem handshake_next_state {pk : protocol.Packet} {hs : handshaking.ServerBoundHandshake}
    (h : handshaking.UnmarshalServerBoundHandshake pk = .ok hs) :
    hs.NextState = handshaking.StateStatus ∨ hs.NextState = handshaking.StateLogin := by
  unfold handshaking.UnmarshalServerBoundHandshake at h
  split at h
  · simp at h
  · split at h
    · simp at h
    · split at h
      · simp at h
      · split at h
        · split at h
          · simp at h
          · split at h
            · rename_i hn
              simp only [Except.ok.injEq] at h
              subst h
              exact hn
            · simp at h
        · simp at h

theorem ParseRealIP_no_suffix {hs : handshaking.ServerBoundHandshake}
    (h : (handshaking.nulSegments hs.ServerAddress).length < 2) :
    hs.ParseRealIP = .error "no_real_ip" := by
  unfold handshaking.ServerBoundHandshake.ParseRealIP
  split
  · rename_i heq
    rw [heq] at h
    simp only [List.length_cons] at h
    omega
  · rfl

theorem ParseRealIP_suffix {hs : handshaking.ServerBoundHandshake}
    (h : 2 ≤ (handshaking.nulSegments hs.ServerAddress).length) :
    ∃ addr uuid sig, hs.ParseRealIP = .ok (addr, uuid, sig) := by
  unfold handshaking.ServerBoundHandshake.ParseRealIP
  split
  · exact ⟨_, _, _, rfl⟩
  · rename_i hne
    exfalso
    cases hseg : handshaking.nulSegments hs.ServerAddress with
    | nil => rw [hseg] at h; simp at h
    | cons x xs =>
      cases xs with
      | nil => rw [hseg] at h; simp at h
      | cons y ys => exact hne x y ys hseg

theorem eq_ok_of_toOption {ε α : Type} {x : Except ε α} {a : α}
    (h : x.toOption = some a) : x = .ok a := by
  cases x with
  | error e => simp [Except.toOption] at h
  | ok b =>
    simp only [Except.toOption, Option.some.injEq] at h
    rw [h]

theorem parsedHandshake_frame {pr : proxyproto.Reader} {c c2 : ProcessingConn}
    {pk1 : protocol.Packet} {hs : handshaking.ServerBoundHandshake}
    (hp : process.parsedHandshake pr c c2 pk1 hs) :
    c2.realIP = c.realIP ∧ c2.username = c.username := by
  obtain ⟨c1, pk0, rest, h1, -, -, rfl⟩ := hp
  have hf := proxyHeader_frame pr c
  rw [h1] at hf
  exact ⟨hf.1, hf.2.2.1⟩

/-- The error of the Real-IP step is what `process` returns. -/
theorem process_forwardedAddr_error {pr : proxyproto.Reader} {c c2 c3 c4 : ProcessingConn}
    {pk1 : protocol.Packet} {hs : handshaking.ServerBoundHandshake} {e : GoError}
    (hp : process.parsedHandshake pr c c2 pk1 hs)
    (h4 : process.serverHost hs c2 = (c3, none))
    (h5 : process.forwardedAddr hs c3 = (c4, some e)) :
    process pr c = .returned c4 (some e) := by
  obtain ⟨c1, pk0, rest, h1, h2, h3, rfl⟩ := hp
  simp [process, h1, h2, h3, h4, h5]

/-- After the Real-IP step `process` returns `nil` for a status request, and
for any other handshake what the parse of the second packet gives. -/
theorem process_tail {pr : proxyproto.Reader} {c c2 c3 c4 : ProcessingConn}
    {pk1 : protocol.Packet} {hs : handshaking.ServerBoundHandshake}
    (hp : process.parsedHandshake pr c c2 pk1 hs)
    (h4 : process.serverHost hs c2 = (c3, none))
    (h5 : process.forwardedAddr hs c3 = (c4, none)) :
    process pr c =
      if hs.IsStatusRequest then .returned c4 none
      else
        match login.UnmarshalServerBoundLoginStart pk1 with
        | .error err => .returned c4 (some err)
        | .ok ls => .returned { c4 with username := ls.Name } none := by
  obtain ⟨c1, pk0, rest, h1, h2, h3, rfl⟩ := hp
  simp [process, h1, h2, h3, h4, h5]

/-- C2, as the code has it, on a Real-IP listener. When `process` returns
`nil`, the handshake address has a forwarding suffix (at least two
NUL-separated segments) and the remote address is the forwarded address. When
the handshake is parsed and the server host step has passed: with a forwarding
suffix `process` returns with the remote address set to the forwarded
address; without one `process` returns the error `no_real_ip` of
`ParseRealIP`. So without a forwarding suffix `process` never returns `nil`.
With Real-IP off the remote address is the one the PROXY step left, whatever
the handshake and whatever `process` returns. -/
theorem C2_real_ip_remote_address (pr : proxyproto.Reader) (c : ProcessingConn) :
    (∀ c' : ProcessingConn, process pr c = .returned c' none → c.realIP = true →
      2 ≤ (handshaking.nulSegments c'.handshake.ServerAddress).length ∧
      ∃ uuid sig, c'.handshake.ParseRealIP = .ok (c'.remoteAddr, uuid, sig)) ∧
    (∀ (c2 c3 : ProcessingConn) (pk1 : protocol.Packet)
        (hs : handshaking.ServerBoundHandshake),
      process.parsedHandshake pr c c2 pk1 hs → process.serverHost hs c2 = (c3, none) →
      c.realIP = true → 2 ≤ (handshaking.nulSegments hs.ServerAddress).length →
        ∃ c' err addr uuid sig, process pr c = .returned c' err ∧
          hs.ParseRealIP = .ok (addr, uuid, sig) ∧ c'.remoteAddr = addr) ∧
    (∀ (c2 c3 : ProcessingConn) (pk1 : protocol.Packet)
        (hs : handshaking.ServerBoundHandshake),
      process.parsedHandshake pr c c2 pk1 hs → process.serverHost hs c2 = (c3, none) →
      c.realIP = true → (handshaking.nulSegments hs.ServerAddress).length < 2 →
        process pr c = .returned c3 (some "no_real_ip")) ∧
    (∀ (c' : ProcessingConn) (err : Option GoError), process pr c = .returned c' err →
      c.realIP = true → (handshaking.nulSegments c'.handshake.ServerAddress).length < 2 →
        err ≠ none) ∧
    (∀ (c' : ProcessingConn) (err : Option GoError), process pr c = .returned c' err →
      c.realIP = false → c'.remoteAddr = (process.proxyHeader pr c).1.remoteAddr) := by
  have key : ∀ c' : ProcessingConn, process pr c = .returned c' none → c.realIP = true →
      ∃ uuid sig, c'.handshake.ParseRealIP = .ok (c'.remoteAddr, uuid, sig) := by
    intro c' h hr
    obtain ⟨c1, p0, p1, s1, rest, hs, host, addr, name, -, -, -, -, -, haddr, -, rfl⟩ :=
      process_ok_fields h
    rcases haddr with ⟨hr', -⟩ | ⟨-, uuid, sig, hp⟩
    · rw [hr] at hr'
      cases hr'
    · exact ⟨uuid, sig, hp⟩
  have hreal : ∀ (c2 c3 : ProcessingConn) (pk1 : protocol.Packet)
      (hs : handshaking.ServerBoundHandshake),
      process.parsedHandshake pr c c2 pk1 hs → process.serverHost hs c2 = (c3, none) →
      c3.realIP = c.realIP := by
    intro c2 c3 pk1 hs hp h4
    obtain ⟨host, rfl, -⟩ := serverHost_ok h4
    exact (parsedHandshake_frame hp).1
  refine ⟨?_, ?_, ?_, ?_, ?_⟩
  · intro c' h hr
    obtain ⟨uuid, sig, hp⟩ := key c' h hr
    exact ⟨ParseRealIP_segments hp, uuid, sig, hp⟩
  · intro c2 c3 pk1 hs hp h4 hr hlen
    obtain ⟨addr, uuid, sig, hok⟩ := ParseRealIP_suffix hlen
    have h5 : process.forwardedAddr hs c3 = ({ c3 with remoteAddr := addr }, none) := by
      simp [process.forwardedAddr, (hreal c2 c3 pk1 hs hp h4).trans hr, hok]
    have ht := process_tail hp h4 h5
    cases hst : hs.IsStatusRequest with
    | true =>
      rw [hst] at ht
      exact ⟨_, _, addr, uuid, sig, ht, hok, rfl⟩
    | false =>
      rw [hst] at ht
      cases hl : login.UnmarshalServerBoundLoginStart pk1 with
      | error e =>
        rw [hl] at ht
        exact ⟨_, _, addr, uuid, sig, ht, hok, rfl⟩
      | ok ls =>
        rw [hl] at ht
        exact ⟨_, _, addr, uuid, sig, ht, hok, rfl⟩
  · intro c2 c3 pk1 hs hp h4 hr hlen
    apply process_forwardedAddr_error hp h4
    simp [process.forwardedAddr, (hreal c2 c3 pk1 hs hp h4).trans hr,
      ParseRealIP_no_suffix hlen]
  · intro c' err h hr hlen he
    subst he
    obtain ⟨uuid, sig, hp⟩ := key c' h hr
    have := ParseRealIP_segments hp
    omega
  · intro c' err h hr
    exact process_returned_remoteAddr h hr

/-- C2 on a Real-IP listener, at two handshakes. The address `localhost`
with the forwarding suffix `203.0.113.9:54321`: `process` returns `nil` and the
remote address, `198.51.100.7:40000` when accepted, is the forwarded one. The
address `mc.example.net` without suffix: the handshake is parsed, the server
host step passes, and `process` returns the error `no_real_ip`. -/
theorem C2_real_ip_remote_address_witness :
    (process proxyproto.readS5
        (accepted
          (handshakeBytes (ascii "localhost" ++ [0] ++ ascii "203.0.113.9:54321") 1
            ++ statusRequestBytes)
          peerAddr false true)
      = .returned
          (processed (ascii "localhost" ++ [0] ++ ascii "203.0.113.9:54321") 1 ⟨0, []⟩
            (ascii "localhost") (ascii "203.0.113.9:54321") false true [])
          none ∧
      ∃ uuid sig,
        handshaking.ServerBoundHandshake.ParseRealIP
            ⟨762, ascii "localhost" ++ [0] ++ ascii "203.0.113.9:54321", 25565, 1⟩
          = .ok (ascii "203.0.113.9:54321", uuid, sig)) ∧
    ((handshaking.nulSegments (ascii "mc.example.net")).length < 2 ∧
      process proxyproto.readS5
          (accepted (handshakeBytes (ascii "mc.example.net") 2 ++ loginStartSteveBytes)
            peerAddr false true)
        = .returned
            (processed (ascii "mc.example.net") 2 ⟨0, [5] ++ ascii "Steve"⟩
              (ascii "mc.example.net") peerAddr false true [])
            (some "no_real_ip")) :=
  ⟨⟨by decide,
    ((C2_real_ip_remote_address proxyproto.readS5
        (accepted
          (handshakeBytes (ascii "localhost" ++ [0] ++ ascii "203.0.113.9:54321") 1
            ++ statusRequestBytes)
          peerAddr false true)).1
        (processed (ascii "localhost" ++ [0] ++ ascii "203.0.113.9:54321") 1 ⟨0, []⟩
          (ascii "localhost") (ascii "203.0.113.9:54321") false true [])
        (by decide) rfl).2⟩,
   ⟨by decide,
    (C2_real_ip_remote_address proxyproto.readS5
        (accepted (handshakeBytes (ascii "mc.example.net") 2 ++ loginStartSteveBytes)
          peerAddr false true)).2.2.1
        (processed (ascii "mc.example.net") 2 ⟨0, [5] ++ ascii "Steve"⟩ [] peerAddr
          false true [])
        (processed (ascii "mc.example.net") 2 ⟨0, [5] ++ ascii "Steve"⟩
          (ascii "mc.example.net") peerAddr false true [])
        ⟨0, [5] ++ ascii "Steve"⟩ ⟨762, ascii "mc.example.net", 25565, 2⟩
        ⟨accepted (handshakeBytes (ascii "mc.example.net") 2 ++ loginStartSteveBytes)
            peerAddr false true,
          handshakePacket (ascii "mc.example.net") 2, [], rfl,
          eq_ok_of_toOption (by decide), eq_ok_of_toOption (by decide), rfl⟩
        rfl rfl (by decide)⟩⟩

/-- C2 fails as stated: on a Real-IP listener the handshake of scenario S1,
whose address `localhost` has no forwarding suffix, makes `process` fail with
the error of `ParseRealIP`. -/
theorem C2_no_forwarding_suffix_makes_process_fail :
    process proxyproto.readS5
        (accepted (handshakeBytes (ascii "localhost") 1 ++ statusRequestBytes) peerAddr false true)
      = .returned
          (processed (ascii "localhost") 1 ⟨0, []⟩ (ascii "localhost") peerAddr false true [])
          (some "no_real_ip") := by
  decide

/-- C3. When `process` returns `nil`: if the next state of the handshake is
Login, the connection holds two packets and the username is the name decoded
from the leading length-prefixed string of the second, whatever follows that
string; for every other next state, which is Status, the username is what it
was before the call, empty on a connection whose username was empty. And a
handshake with a next state other than Login that has passed the server host
and Real-IP steps makes `process` return `nil` whatever the second packet
holds: it is not parsed. -/
theorem C3_username_by_next_state (pr : proxyproto.Reader) (c : ProcessingConn) :
    (∀ c' : ProcessingConn, process pr c = .returned c' none →
      (c'.handshake.NextState = handshaking.StateLogin →
        ∃ p0 p1 rest, c'.readPks = [p0, p1] ∧
          protocol.readString p1.Data = .ok (c'.username, rest)) ∧
      (c'.handshake.NextState ≠ handshaking.StateLogin →
        c'.handshake.NextState = handshaking.StateStatus ∧
        c'.username = c.username ∧ (c.username = [] → c'.username = []))) ∧
    (∀ (c2 c3 c4 : ProcessingConn) (pk1 : protocol.Packet)
        (hs : handshaking.ServerBoundHandshake),
      process.parsedHandshake pr c c2 pk1 hs → process.serverHost hs c2 = (c3, none) →
      process.forwardedAddr hs c3 = (c4, none) → hs.NextState ≠ handshaking.StateLogin →
        process pr c = .returned c4 none ∧ c4.username = c.username) := by
  refine ⟨?_, ?_⟩
  · intro c' h
    obtain ⟨c1, p0, p1, s1, rest, hs, host, addr, name, -, -, -, h3, -, -, hname, rfl⟩ :=
      process_ok_fields h
    have hdom := handshake_next_state h3
    refine ⟨?_, ?_⟩
    · intro hn
      simp only at hn
      rcases hname with ⟨hst, -⟩ | ⟨-, hl⟩
      · simp [handshaking.ServerBoundHandshake.IsStatusRequest, hn,
          handshaking.StateStatus, handshaking.StateLogin] at hst
      · obtain ⟨r, hr⟩ := loginStart_name hl
        exact ⟨p0, p1, r, rfl, hr⟩
    · intro hn
      simp only at hn
      have hs1 : hs.NextState = handshaking.StateStatus := by
        rcases hdom with h1 | h2
        · exact h1
        · exact absurd h2 hn
      rcases hname with ⟨-, rfl⟩ | ⟨hst, -⟩
      · exact ⟨hs1, rfl, fun he => he⟩
      · simp [handshaking.ServerBoundHandshake.IsStatusRequest, hs1] at hst
  · intro c2 c3 c4 pk1 hs hp h4 h5 hn
    have hdom : hs.NextState = handshaking.StateStatus := by
      obtain ⟨c1, pk0, rest, -, -, h3, -⟩ := hp
      rcases handshake_next_state h3 with h1 | h2
      · exact h1
      · exact absurd h2 hn
    have ht := process_tail hp h4 h5
    have hst : hs.IsStatusRequest = true := by
      simp [handshaking.ServerBoundHandshake.IsStatusRequest, hdom]
    rw [hst] at ht
    refine ⟨by simpa using ht, ?_⟩
    obtain ⟨host, rfl, -⟩ := serverHost_ok h4
    have hu := (parsedHandshake_frame hp).2
    rcases forwardedAddr_ok h5 with ⟨-, rfl⟩ | ⟨-, addr, uuid, sig, -, rfl⟩
    · exact hu
    · exact hu

/-- C3 at two scenarios. S3: next state Login, address `mc.example.net`,
Login Start with the name `Steve`; `process` returns `nil` and the username is
`Steve`, the leading string of the second packet. S1: next state Status,
address `localhost`, and a second packet without data, which does not read as
a Login Start; `process` returns `nil` and the username is empty as before. -/
theorem C3_username_by_next_state_witness :
    (process proxyproto.readS5
        (accepted (handshakeBytes (ascii "mc.example.net") 2 ++ loginStartSteveBytes)
          peerAddr false false)
      = .returned
          (processed (ascii "mc.example.net") 2 ⟨0, [5] ++ ascii "Steve"⟩
            (ascii "mc.example.net") peerAddr false false (ascii "Steve"))
          none ∧
      ∃ p0 p1 rest,
        [handshakePacket (ascii "mc.example.net") 2, ⟨0, [5] ++ ascii "Steve"⟩] = [p0, p1] ∧
        protocol.readString p1.Data = .ok (ascii "Steve", rest)) ∧
    (login.UnmarshalServerBoundLoginStart ⟨0, []⟩ = .error "unexpected_eof" ∧
      process proxyproto.readS5
          (accepted (handshakeBytes (ascii "localhost") 1 ++ statusRequestBytes)
            peerAddr false false)
        = .returned
            (processed (ascii "localhost") 1 ⟨0, []⟩ (ascii "localhost") peerAddr
              false false [])
            none) :=
  ⟨⟨by decide,
    ((C3_username_by_next_state proxyproto.readS5
        (accepted (handshakeBytes (ascii "mc.example.net") 2 ++ loginStartSteveBytes)
          peerAddr false false)).1
        (processed (ascii "mc.example.net") 2 ⟨0, [5] ++ ascii "Steve"⟩
          (ascii "mc.example.net") peerAddr false false (ascii "Steve"))
        (by decide)).1 rfl⟩,
   ⟨rfl,
    ((C3_username_by_next_state proxyproto.readS5
        (accepted (handshakeBytes (ascii "localhost") 1 ++ statusRequestBytes)
          peerAddr false false)).2
        (processed (ascii "localhost") 1 ⟨0, []⟩ [] peerAddr false false [])
        (processed (ascii "localhost") 1 ⟨0, []⟩ (ascii "localhost") peerAddr false false [])
        (processed (ascii "localhost") 1 ⟨0, []⟩ (ascii "localhost") peerAddr false false [])
        ⟨0, []⟩ ⟨762, ascii "localhost", 25565, 1⟩
        ⟨accepted (handshakeBytes (ascii "localhost") 1 ++ statusRequestBytes)
            peerAddr false false,
          handshakePacket (ascii "localhost") 1, [], rfl, rfl, rfl, rfl⟩
        rfl rfl (by decide)).1⟩⟩

/-- C6: run on any sequence of connections arriving before the inbound channel
is closed, the worker sends on `srvChan` exactly the connections whose
processing returned `nil`, in arrival order, and closes exactly those whose
processing returned an error; every connection is in one of the two, so an
error never stops the loop, and the worker ends by the `break` on the closed
channel, never by a panic. -/
theorem C6_worker_forwards_exactly_the_successes (pr : proxyproto.Reader)
    (cpnChan : List ProcessingConn) :
    (CPN.Start pr cpnChan).srvChan
      = cpnChan.filterMap (fun c =>
          match process pr c with
          | .returned c' none => some c'
          | _ => none) ∧
    (CPN.Start pr cpnChan).closed
      = cpnChan.filterMap (fun c =>
          match process pr c with
          | .returned c' (some _) => some c'
          | _ => none) ∧
    (CPN.Start pr cpnChan).panicked = false ∧
    (CPN.Start pr cpnChan).srvChan.length + (CPN.Start pr cpnChan).closed.length
      = cpnChan.length := by
  induction cpnChan with
  | nil => simp [CPN.Start]
  | cons c cs ih =>
    obtain ⟨ih1, ih2, ih3, ih4⟩ := ih
    cases hp : process pr c with
    | panicked => exact absurd hp (process_never_panics pr c)
    | returned c' err =>
      cases err with
      | none =>
        simp only [CPN.Start, hp, List.filterMap_cons, List.length_cons]
        exact ⟨by rw [ih1], ih2, ih3, by omega⟩
      | some e =>
        simp only [CPN.Start, hp, List.filterMap_cons, List.length_cons]
        exact ⟨ih1, by rw [ih2], ih3, by omega⟩

/-- C7: when `process` returns `nil`, two packets were read one after the
other from the stream the PROXY step left, the replay packets of the
connection are these two in the order read, and the handshake of the
connection is the first of them parsed. -/
theorem C7_replay_packets_and_handshake (pr : proxyproto.Reader) (c c' : ProcessingConn)
    (h : process pr c = .returned c' none) :
    ∃ p0 p1 s1,
      protocol.ReadPacket (process.proxyHeader pr c).1.stream = .ok (p0, s1) ∧
      protocol.ReadPacket s1 = .ok (p1, c'.stream) ∧
      c'.readPks = [p0, p1] ∧
      handshaking.UnmarshalServerBoundHandshake p0 = .ok c'.handshake := by
  obtain ⟨c1, p0, p1, s1, rest, hs, host, addr, name, h1, hq0, hq1, h3, -, -, -, rfl⟩ :=
    process_ok_fields h
  rw [h1]
  exact ⟨p0, p1, s1, hq0, hq1, rfl, h3⟩

/-- C7 at scenario S1: `process` returns `nil`; the handshake for `localhost`
and the Status Request were read in that order, they are the two replay
packets, and the handshake of the connection is the first one parsed. -/
theorem C7_replay_packets_and_handshake_witness :
    process proxyproto.readS5
        (accepted (handshakeBytes (ascii "localhost") 1 ++ statusRequestBytes)
          peerAddr false false)
      = .returned
          (processed (ascii "localhost") 1 ⟨0, []⟩ (ascii "localhost") peerAddr false false [])
          none ∧
    ∃ p0 p1 s1,
      protocol.ReadPacket (handshakeBytes (ascii "localhost") 1 ++ statusRequestBytes)
        = .ok (p0, s1) ∧
      protocol.ReadPacket s1 = .ok (p1, []) ∧
      [handshakePacket (ascii "localhost") 1, ⟨0, []⟩] = [p0, p1] ∧
      handshaking.UnmarshalServerBoundHandshake p0 = .ok ⟨762, ascii "localhost", 25565, 1⟩ :=
  ⟨by decide,
   C7_replay_packets_and_handshake proxyproto.readS5
    (accepted (handshakeBytes (ascii "localhost") 1 ++ statusRequestBytes) peerAddr false false)
    (processed (ascii "localhost") 1 ⟨0, []⟩ (ascii "localhost") peerAddr false false [])
    (by decide)⟩

/-- C8: with Real-IP off. PROXY protocol on: when the header cannot be read,
`process` returns that error with the connection untouched, no packet read;
when it is read and `process` returns `nil`, the remote address is the source
address of the header. PROXY protocol off: the header reader is never used,
`process` does the same with any reader, and whatever it returns the remote
address is the one the connection was accepted with. -/
theorem C8_proxy_protocol_remote_address (pr : proxyproto.Reader) (c : ProcessingConn)
    (hreal : c.realIP = false) :
    (c.proxyProtocol = true →
      (∀ e, pr c.stream = .error e → process pr c = .returned c (some e)) ∧
      (∀ hd rest c', pr c.stream = .ok (hd, rest) → process pr c = .returned c' none →
        c'.remoteAddr = hd.SourceAddr)) ∧
    (c.proxyProtocol = false →
      (∀ pr' : proxyproto.Reader, process pr' c = process pr c) ∧
      (∀ c' err, process pr c = .returned c' err → c'.remoteAddr = c.remoteAddr)) := by
  refine ⟨fun hp => ⟨?_, ?_⟩, fun hp => ⟨?_, ?_⟩⟩
  · intro e he
    simp [process, process.proxyHeader, hp, he]
  · intro hd rest c' hok h
    rw [process_returned_remoteAddr h hreal]
    simp [process.proxyHeader, hp, hok]
  · intro pr'
    simp [process, process.proxyHeader, hp]
  · intro c' err h
    rw [process_returned_remoteAddr h hreal]
    simp [process.proxyHeader, hp]

/-- C8 at scenario S5: the stream starts with the PROXY v2 header carrying
the source `203.0.113.9:54321`, then a Login handshake and Login Start; Real-IP
is off, the header is read, `process` returns `nil` and the remote address is
that source. -/
theorem C8_proxy_protocol_remote_address_witness :
    (accepted
        (proxyproto.headerS5 ++ handshakeBytes (ascii "mc.example.net") 2
          ++ loginStartSteveBytes)
        peerAddr true false).realIP = false ∧
    process proxyproto.readS5
        (accepted
          (proxyproto.headerS5 ++ handshakeBytes (ascii "mc.example.net") 2
            ++ loginStartSteveBytes)
          peerAddr true false)
      = .returned
          (processed (ascii "mc.example.net") 2 ⟨0, [5] ++ ascii "Steve"⟩
            (ascii "mc.example.net") (ascii "203.0.113.9:54321") true false (ascii "Steve"))
          none ∧
    (processed (ascii "mc.example.net") 2 ⟨0, [5] ++ ascii "Steve"⟩
        (ascii "mc.example.net") (ascii "203.0.113.9:54321") true false (ascii "Steve")).remoteAddr
      = (proxyproto.Header.mk (ascii "203.0.113.9:54321")).SourceAddr :=
  ⟨rfl, by decide,
   ((C8_proxy_protocol_remote_address proxyproto.readS5
      (accepted
        (proxyproto.headerS5 ++ handshakeBytes (ascii "mc.example.net") 2
          ++ loginStartSteveBytes)
        peerAddr true false)
      rfl).1 rfl).2
      ⟨ascii "203.0.113.9:54321"⟩
      (handshakeBytes (ascii "mc.example.net") 2 ++ loginStartSteveBytes)
      (processed (ascii "mc.example.net") 2 ⟨0, [5] ++ ascii "Steve"⟩
        (ascii "mc.example.net") (ascii "203.0.113.9:54321") true false (ascii "Steve"))
      (by rfl) (by decide)⟩

/-! ### Configuration merge -/

/-- C9, the code at the failing input: the configuration file and a file of
the file provider both set `java.bind`. `config.Read`, visiting the
configuration file first and the provider second, returns the value of the
first, not of the one merged later; visiting them in the other order it
returns the other value; `readConfigData`, given the same two maps as files in
that order, returns the value of the later one. -/
theorem C9_config_Read_keeps_the_first_value :
    config.Read [(.ConfigType, javaBind ":25565"), (.FileType, javaBind ":25566")]
      = .ok (javaBind ":25565") ∧
    config.Read [(.FileType, javaBind ":25566"), (.ConfigType, javaBind ":25565")]
      = .ok (javaBind ":25566") ∧
    (provider.File.readConfigData [.ok (javaBind ":25565"), .ok (javaBind ":25566")]).1.Config
      = javaBind ":25566" :=
  ⟨rfl, rfl, rfl⟩

/-! ### Event bus -/

theorem sendEvent_loop_keys {Handler : Type} (e : event.Event)
    (ws : List (String × event.worker Handler)) :
    (event.internalBus.sendEvent.loop e ws).map Prod.fst = ws.map Prod.fst := by
  induction ws with
  | nil => rfl
  | cons p ps ih =>
    obtain ⟨id, w⟩ := p
    simp [event.internalBus.sendEvent.loop, ih]

theorem sendEvent_loop_getElem? {Handler : Type} (e : event.Event)
    (ws : List (String × event.worker Handler)) (i : Nat) :
    (event.internalBus.sendEvent.loop e ws)[i]?
      = (ws[i]?).map fun p => (p.1, p.2.push e) := by
  induction ws generalizing i with
  | nil => simp [event.internalBus.sendEvent.loop]
  | cons p ps ih =>
    obtain ⟨id, w⟩ := p
    cases i with
    | zero => simp [event.internalBus.sendEvent.loop]
    | succ j => simp [event.internalBus.sendEvent.loop, ih]

/-- C10: on a bus whose inboxes have the capacity 100 that `newWorker` gives
them, `Push` leaves the recipients and their order as they are, and to every
recipient does this: its identifier, handler and capacity stay; if fewer than
100 events are pending the event is appended to the inbox; if 100 are pending
the recipient is left exactly as it was. -/
theorem C10_push_appends_or_drops {Handler : Type} (b : event.internalBus Handler)
    (data : String) (topics : List String)
    (hcap : ∀ p ∈ b.workers, p.2.inChan.cap = 100) :
    (b.Push data topics).workers.map Prod.fst = b.workers.map Prod.fst ∧
    ∀ (i : Nat) (id : String) (w : event.worker Handler), b.workers[i]? = some (id, w) →
      ∃ w', (b.Push data topics).workers[i]? = some (id, w') ∧
        w'.id = w.id ∧ w'.h = w.h ∧ w'.inChan.cap = 100 ∧
        (w.inChan.buf.length < 100 →
          w'.inChan.buf = w.inChan.buf ++ [event.New data topics]) ∧
        (100 ≤ w.inChan.buf.length → w' = w) := by
  refine ⟨sendEvent_loop_keys _ _, ?_⟩
  intro i id w hi
  have hmem : (id, w) ∈ b.workers := List.getElem?_mem hi
  have hc : w.inChan.cap = 100 := hcap _ hmem
  refine ⟨w.push (event.New data topics), ?_, ?_, ?_, ?_, ?_, ?_⟩
  · simp [event.internalBus.Push, event.internalBus.sendEvent, sendEvent_loop_getElem?, hi]
  · unfold event.worker.push
    split <;> rfl
  · unfold event.worker.push
    split <;> rfl
  · unfold event.worker.push
    split <;> simpa using hc
  · intro hlt
    simp [event.worker.push, hc, hlt]
  · intro hge
    have : ¬ w.inChan.buf.length < 100 := by omega
    simp [event.worker.push, hc, this]

/-- C10 on the bus with a full and an empty inbox: both inboxes have
capacity 100, and after `Push` the two recipients are still `slow` and `idle`,
the full inbox of `slow` is as it was and the inbox of `idle` holds the
event. -/
theorem C10_push_appends_or_drops_witness :
    (∀ p ∈ event.twoRecipients.workers, p.2.inChan.cap = 100) ∧
    ((event.twoRecipients.Push "tock" ["PlayerJoin"]).workers.map Prod.fst = ["slow", "idle"] ∧
      (event.twoRecipients.Push "tock" ["PlayerJoin"]).workers.map (fun p => p.2.inChan.buf)
        = [List.replicate 100 (event.New "tick" []), [event.New "tock" ["PlayerJoin"]]]) :=
  ⟨by
      intro p hp
      simp only [event.twoRecipients, List.mem_cons, List.mem_singleton, List.not_mem_nil,
        or_false] at hp
      rcases hp with rfl | rfl <;> rfl,
   (C10_push_appends_or_drops event.twoRecipients "tock" ["PlayerJoin"]
      (by
        intro p hp
        simp only [event.twoRecipients, List.mem_cons, List.mem_singleton, List.not_mem_nil,
          or_false] at hp
        rcases hp with rfl | rfl <;> rfl)).1,
   by decide⟩

/-! ### Full status override -/

/-- C12: when the override has version name, protocol number, max players,
online players, icon and MOTD set and its player samples are not nil, the
response it produces is the same for any two backend responses in version,
players, description text and favicon, and in each of them it equals the
response of the `ServerStatusResponse` built from the same values. -/
theorem C12_full_override_ignores_backend (r : OverrideServerStatusResponse)
    (resp1 resp2 : status.ResponseJSON)
    (name : String) (protocol max online : Int) (samples : List PlayerSample)
    (icon motd : String)
    (hname : r.VersionName = some name) (hprotocol : r.ProtocolNumber = some protocol)
    (hmax : r.MaxPlayerCount = some max) (honline : r.PlayerCount = some online)
    (hsamples : r.PlayerSamples = some samples) (hicon : r.Icon = some icon)
    (hmotd : r.MOTD = some motd) :
    ((r.ResponseJSON resp1 []).Version = (r.ResponseJSON resp2 []).Version ∧
      (r.ResponseJSON resp1 []).Players = (r.ResponseJSON resp2 []).Players ∧
      (r.ResponseJSON resp1 []).Description.Text = (r.ResponseJSON resp2 []).Description.Text ∧
      (r.ResponseJSON resp1 []).Favicon = (r.ResponseJSON resp2 []).Favicon) ∧
    ∀ resp : status.ResponseJSON,
      (r.ResponseJSON resp []).Version
        = (ServerStatusResponse.ResponseJSON
            { VersionName := name, ProtocolNumber := protocol, MaxPlayerCount := max,
              PlayerCount := online, PlayerSamples := some samples, Icon := icon,
              MOTD := motd }).Version ∧
      (r.ResponseJSON resp []).Players
        = (ServerStatusResponse.ResponseJSON
            { VersionName := name, ProtocolNumber := protocol, MaxPlayerCount := max,
              PlayerCount := online, PlayerSamples := some samples, Icon := icon,
              MOTD := motd }).Players ∧
      (r.ResponseJSON resp []).Description.Text
        = (ServerStatusResponse.ResponseJSON
            { VersionName := name, ProtocolNumber := protocol, MaxPlayerCount := max,
              PlayerCount := online, PlayerSamples := some samples, Icon := icon,
              MOTD := motd }).Description.Text ∧
      (r.ResponseJSON resp []).Favicon
        = (ServerStatusResponse.ResponseJSON
            { VersionName := name, ProtocolNumber := protocol, MaxPlayerCount := max,
              PlayerCount := online, PlayerSamples := some samples, Icon := icon,
              MOTD := motd }).Favicon := by
  obtain ⟨vn, pn, mx, pc, ps, ic, md⟩ := r
  simp only at hname hprotocol hmax honline hsamples hicon hmotd
  subst hname hprotocol hmax honline hsamples hicon hmotd
  have key : ∀ resp : status.ResponseJSON,
      OverrideServerStatusResponse.ResponseJSON
          { VersionName := some name, ProtocolNumber := some protocol,
            MaxPlayerCount := some max, PlayerCount := some online,
            PlayerSamples := some samples, Icon := some icon, MOTD := some motd } resp []
        = ServerStatusResponse.ResponseJSON
            { VersionName := name, ProtocolNumber := protocol, MaxPlayerCount := max,
              PlayerCount := online, PlayerSamples := some samples, Icon := icon,
              MOTD := motd } := by
    intro resp
    rfl
  refine ⟨?_, fun resp => ?_⟩
  · rw [key resp1, key resp2]
    exact ⟨rfl, rfl, rfl, rfl⟩
  · rw [key resp]
    exact ⟨rfl, rfl, rfl, rfl⟩

/-- C12 at a concrete full override and two backends that differ in every
field: the override has its seven fields set, and the favicon comes out as the
icon of the override for both backends. -/
theorem C12_full_override_ignores_backend_witness :
    fullOverride.MOTD = some "hi" ∧
    (fullOverride.ResponseJSON backendA []).Description.Text = "hi" ∧
    (fullOverride.ResponseJSON backendA []).Players.Online = 3 ∧
    (fullOverride.ResponseJSON backendA []).Favicon
      = (fullOverride.ResponseJSON backendB []).Favicon :=
  ⟨rfl, by decide, by decide,
   (C12_full_override_ignores_backend fullOverride backendA backendB "Infrared" 762 20 3
      [{ Name := "Steve", UUID := "8667ba71" }] "data:image/png;base64,AAAA" "hi"
      rfl rfl rfl rfl rfl rfl rfl).1.2.2.2⟩


/-! ### Message templates -/

theorem scan_skip (tmpls : List (String × String)) (xs rest : List Char) :
    ExecuteMessageTemplate.scan tmpls xs.length (xs ++ rest)
      = ExecuteMessageTemplate.scan tmpls 0 rest := by
  induction xs with
  | nil => rfl
  | cons x xs ih => simpa [ExecuteMessageTemplate.scan] using ih

theorem matchTemplate_some {tmpls : List (String × String)} {s : List Char} {value : String}
    {len : Nat} (h : matchTemplate tmpls s = some (value, len)) :
    ∃ token, (token, value) ∈ tmpls ∧ token.data ≠ [] ∧ token.data <+: s ∧
      len = token.data.length := by
  induction tmpls with
  | nil => simp [matchTemplate] at h
  | cons t ts ih =>
    obtain ⟨token, v⟩ := t
    unfold matchTemplate at h
    split at h
    · rename_i hc
      simp only [Option.some.injEq, Prod.mk.injEq] at h
      obtain ⟨rfl, rfl⟩ := h
      exact ⟨token, List.mem_cons_self _ _, hc.1, List.isPrefixOf_iff_prefix.mp hc.2, rfl⟩
    · obtain ⟨tok, hm, h1, h2, h3⟩ := ih h
      exact ⟨tok, List.mem_cons_of_mem _ hm, h1, h2, h3⟩

theorem scan_token_head {tmpls : List (String × String)} {token value : String}
    {rest : List Char} (hne : token.data ≠ [])
    (h : matchTemplate tmpls (token.data ++ rest) = some (value, token.data.length)) :
    ExecuteMessageTemplate.scan tmpls 0 (token.data ++ rest)
      = value.data ++ ExecuteMessageTemplate.scan tmpls 0 rest := by
  cases hd : token.data with
  | nil => exact absurd hd hne
  | cons c cs =>
    rw [hd] at h
    simp only [List.cons_append] at h ⊢
    simp only [ExecuteMessageTemplate.scan, h, List.length_cons, Nat.add_sub_cancel]
    rw [scan_skip]

theorem prefix_of_prefix_append_brace {w u X : List Char} (hw : '\x7b' ∉ w)
    (hX : X.head? = some '\x7b') (h : w <+: u ++ X) : w <+: u := by
  induction u generalizing w with
  | nil =>
    cases w with
    | nil => exact List.nil_prefix
    | cons c cs =>
      cases X with
      | nil => simp at hX
      | cons x xs =>
        simp only [List.head?_cons, Option.some.injEq] at hX
        simp only [List.nil_append, List.cons_prefix_cons] at h
        exact absurd (by rw [h.1, hX]; exact List.mem_cons_self _ _) hw
  | cons a u ih =>
    cases w with
    | nil => exact List.nil_prefix
    | cons c cs =>
      simp only [List.cons_append, List.cons_prefix_cons] at h ⊢
      exact ⟨h.1, ih (fun hm => hw (List.mem_cons_of_mem _ hm)) h.2⟩

theorem no_straddle {w s Y : List Char} (hw : TokenShaped w) (hs : s ≠ [])
    (h : w <+: s ++ '\x7b' :: '\x7b' :: Y) : w <+: s := by
  obtain ⟨body, rfl, hb, hnb⟩ := hw
  cases s with
  | nil => exact absurd rfl hs
  | cons c s1 =>
    simp only [List.cons_append, List.cons_prefix_cons] at h ⊢
    refine ⟨h.1, ?_⟩
    cases s1 with
    | nil =>
      exfalso
      cases body with
      | nil => exact hb rfl
      | cons b bs =>
        have h2 := h.2
        simp only [List.nil_append, List.cons_prefix_cons] at h2
        exact hnb (by rw [h2.2.1]; exact List.mem_cons_self _ _)
    | cons d s2 =>
      have h2 := h.2
      simp only [List.cons_append, List.cons_prefix_cons] at h2 ⊢
      exact ⟨h2.1, prefix_of_prefix_append_brace hnb (X := '\x7b' :: '\x7b' :: Y) rfl h2.2⟩

theorem matchTemplate_append {tmpls : List (String × String)}
    (hshape : ∀ t ∈ tmpls, TokenShaped t.1.data) {s Y : List Char} (hs : s ≠ []) :
    matchTemplate tmpls (s ++ '\x7b' :: '\x7b' :: Y) = matchTemplate tmpls s := by
  induction tmpls with
  | nil => rfl
  | cons t ts ih =>
    obtain ⟨token, v⟩ := t
    have hsh : TokenShaped token.data := hshape (token, v) (List.mem_cons_self _ _)
    have hiff : token.data.isPrefixOf (s ++ '\x7b' :: '\x7b' :: Y) = token.data.isPrefixOf s := by
      rw [Bool.eq_iff_iff, List.isPrefixOf_iff_prefix, List.isPrefixOf_iff_prefix]
      exact ⟨no_straddle hsh hs, fun h => h.trans (List.prefix_append _ _)⟩
    unfold matchTemplate
    rw [hiff, ih (fun t ht => hshape t (List.mem_cons_of_mem _ ht))]

theorem scan_zero_cons (tmpls : List (String × String)) (c : Char) (cs : List Char) :
    ExecuteMessageTemplate.scan tmpls 0 (c :: cs)
      = match matchTemplate tmpls (c :: cs) with
        | some (value, len) => value.data ++ ExecuteMessageTemplate.scan tmpls (len - 1) cs
        | none => c :: ExecuteMessageTemplate.scan tmpls 0 cs := rfl

theorem scan_succ_cons (tmpls : List (String × String)) (k : Nat) (c : Char) (cs : List Char) :
    ExecuteMessageTemplate.scan tmpls (k + 1) (c :: cs)
      = ExecuteMessageTemplate.scan tmpls k cs := rfl

theorem scan_append {tmpls : List (String × String)}
    (hshape : ∀ t ∈ tmpls, TokenShaped t.1.data) {X Y : List Char}
    (hX : X = '\x7b' :: '\x7b' :: Y) (a : List Char) :
    ∀ k, k ≤ a.length →
      ExecuteMessageTemplate.scan tmpls k (a ++ X)
        = ExecuteMessageTemplate.scan tmpls k a ++ ExecuteMessageTemplate.scan tmpls 0 X := by
  induction a with
  | nil =>
    intro k hk
    have : k = 0 := by simpa using hk
    subst this
    simp [ExecuteMessageTemplate.scan]
  | cons c cs ih =>
    intro k hk
    cases k with
    | succ k =>
      rw [List.cons_append, scan_succ_cons, scan_succ_cons]
      exact ih k (by simpa using hk)
    | zero =>
      have hm : matchTemplate tmpls (c :: (cs ++ X)) = matchTemplate tmpls (c :: cs) := by
        have := matchTemplate_append hshape (s := c :: cs) (Y := Y) (by simp)
        rw [← hX] at this
        simpa using this
      rw [List.cons_append, scan_zero_cons, scan_zero_cons, hm]
      cases hmt : matchTemplate tmpls (c :: cs) with
      | none =>
        simp only [List.cons_append]
        rw [ih 0 (Nat.zero_le _)]
      | some v =>
        obtain ⟨value, len⟩ := v
        obtain ⟨token, -, hne, hpre, rfl⟩ := matchTemplate_some hmt
        have hlen : token.data.length - 1 ≤ cs.length := by
          have := hpre.length_le
          simp only [List.length_cons] at this
          omega
        simp only [List.append_assoc]
        rw [ih _ hlen]

theorem scan_no_token {tmpls : List (String × String)} (t : List Char)
    (h : ∀ tm ∈ tmpls, ¬ tm.1.data <:+: t) : ExecuteMessageTemplate.scan tmpls 0 t = t := by
  induction t with
  | nil => rfl
  | cons c cs ih =>
    rw [scan_zero_cons]
    cases hmt : matchTemplate tmpls (c :: cs) with
    | some v =>
      obtain ⟨value, len⟩ := v
      obtain ⟨token, hmem, -, hpre, -⟩ := matchTemplate_some hmt
      exact absurd hpre.isInfix (h (token, value) hmem)
    | none =>
      simp only
      rw [ih fun tm hm hinf => h tm hm (hinf.trans (List.suffix_cons c cs).isInfix)]

theorem playerTemplates_shaped (p : Player) :
    ∀ t ∈ PlayerMessageTemplates p, TokenShaped t.1.data := by
  intro t ht
  simp only [PlayerMessageTemplates, List.mem_cons, List.mem_singleton, List.not_mem_nil,
    or_false] at ht
  rcases ht with rfl | rfl | rfl | rfl | rfl
  · exact ⟨"username\x7d\x7d".data, rfl, by decide, by decide⟩
  · exact ⟨"remoteAddress\x7d\x7d".data, rfl, by decide, by decide⟩
  · exact ⟨"localAddress\x7d\x7d".data, rfl, by decide, by decide⟩
  · exact ⟨"matchedAddress\x7d\x7d".data, rfl, by decide, by decide⟩
  · exact ⟨"gatewayId\x7d\x7d".data, rfl, by decide, by decide⟩

theorem execute_token (p : Player) (token value : String)
    (hne : token.data ≠ [])
    (hsh : ∃ Y, token.data = '\x7b' :: '\x7b' :: Y)
    (hmatch : ∀ rest : List Char,
      matchTemplate (PlayerMessageTemplates p) (token.data ++ rest)
        = some (value, token.data.length))
    (a b : String) :
    ExecuteMessageTemplate (a ++ token ++ b) (PlayerMessageTemplates p)
      = ExecuteMessageTemplate a (PlayerMessageTemplates p) ++ value
        ++ ExecuteMessageTemplate b (PlayerMessageTemplates p) := by
  obtain ⟨Y, hY⟩ := hsh
  apply String.ext
  simp only [ExecuteMessageTemplate, String.data_append, List.append_assoc]
  rw [scan_append (playerTemplates_shaped p) (X := token.data ++ b.data)
    (Y := Y ++ b.data) (by rw [hY]; rfl) a.data 0 (Nat.zero_le _)]
  rw [scan_token_head hne (hmatch b.data)]

/-- C11: for every player, with the player's templates, an occurrence of
`{{username}}`, `{{remoteAddress}}`, `{{localAddress}}`, `{{matchedAddress}}` or
`{{gatewayId}}` anywhere in a message is replaced by the player's username,
remote address, local address, matched domain pattern or gateway id, and the
text before and after it is treated on its own; a message in which none of the
five tokens occurs, whatever else it holds between braces, comes out
unchanged. -/
theorem C11_templates_replace_each_token (p : Player) :
    (∀ a b : String,
      ExecuteMessageTemplate (a ++ templateToken "username" ++ b) (PlayerMessageTemplates p)
        = ExecuteMessageTemplate a (PlayerMessageTemplates p) ++ p.Username
          ++ ExecuteMessageTemplate b (PlayerMessageTemplates p)) ∧
    (∀ a b : String,
      ExecuteMessageTemplate (a ++ templateToken "remoteAddress" ++ b) (PlayerMessageTemplates p)
        = ExecuteMessageTemplate a (PlayerMessageTemplates p) ++ p.RemoteAddr
          ++ ExecuteMessageTemplate b (PlayerMessageTemplates p)) ∧
    (∀ a b : String,
      ExecuteMessageTemplate (a ++ templateToken "localAddress" ++ b) (PlayerMessageTemplates p)
        = ExecuteMessageTemplate a (PlayerMessageTemplates p) ++ p.LocalAddr
          ++ ExecuteMessageTemplate b (PlayerMessageTemplates p)) ∧
    (∀ a b : String,
      ExecuteMessageTemplate (a ++ templateToken "matchedAddress" ++ b) (PlayerMessageTemplates p)
        = ExecuteMessageTemplate a (PlayerMessageTemplates p) ++ p.MatchedAddr
          ++ ExecuteMessageTemplate b (PlayerMessageTemplates p)) ∧
    (∀ a b : String,
      ExecuteMessageTemplate (a ++ templateToken "gatewayId" ++ b) (PlayerMessageTemplates p)
        = ExecuteMessageTemplate a (PlayerMessageTemplates p) ++ p.GatewayID
          ++ ExecuteMessageTemplate b (PlayerMessageTemplates p)) ∧
    (∀ msg : String,
      (∀ tm ∈ PlayerMessageTemplates p, ¬ tm.1.data <:+: msg.data) →
        ExecuteMessageTemplate msg (PlayerMessageTemplates p) = msg) := by
  refine ⟨?_, ?_, ?_, ?_, ?_, ?_⟩
  · exact execute_token p _ _ (by decide) ⟨_, rfl⟩
      (fun rest => by
        simp [matchTemplate, PlayerMessageTemplates, templateToken, List.isPrefixOf])
  · exact execute_token p _ _ (by decide) ⟨_, rfl⟩
      (fun rest => by
        simp [matchTemplate, PlayerMessageTemplates, templateToken, List.isPrefixOf])
  · exact execute_token p _ _ (by decide) ⟨_, rfl⟩
      (fun rest => by
        simp [matchTemplate, PlayerMessageTemplates, templateToken, List.isPrefixOf])
  · exact execute_token p _ _ (by decide) ⟨_, rfl⟩
      (fun rest => by
        simp [matchTemplate, PlayerMessageTemplates, templateToken, List.isPrefixOf])
  · exact execute_token p _ _ (by decide) ⟨_, rfl⟩
      (fun rest => by
        simp [matchTemplate, PlayerMessageTemplates, templateToken, List.isPrefixOf])
  · intro msg h
    apply String.ext
    exact scan_no_token msg.data h

/-- C11 on the cases of conn_test.go and on an unknown token: for the mock
player each of the five tokens gives the expected message, and a message with
the unknown token `{{unknown}}`, in which none of the five occurs, is
unchanged. -/
theorem C11_templates_replace_each_token_witness :
    (ExecuteMessageTemplate (templateToken "username") (PlayerMessageTemplates mockPlayer)
        = "username" ∧
      ExecuteMessageTemplate (templateToken "remoteAddress") (PlayerMessageTemplates mockPlayer)
        = "ip:port" ∧
      ExecuteMessageTemplate (templateToken "localAddress") (PlayerMessageTemplates mockPlayer)
        = "ip:port" ∧
      ExecuteMessageTemplate (templateToken "matchedAddress") (PlayerMessageTemplates mockPlayer)
        = "matchedAddr" ∧
      ExecuteMessageTemplate (templateToken "gatewayId") (PlayerMessageTemplates mockPlayer)
        = "gatewayId") ∧
    (∀ tm ∈ PlayerMessageTemplates mockPlayer,
      ¬ tm.1.data <:+: ("Kicked: " ++ templateToken "unknown").data) ∧
    ExecuteMessageTemplate ("Kicked: " ++ templateToken "unknown")
        (PlayerMessageTemplates mockPlayer)
      = "Kicked: " ++ templateToken "unknown" :=
  ⟨by decide, by decide,
   (C11_templates_replace_each_token mockPlayer).2.2.2.2.2
      ("Kicked: " ++ templateToken "unknown") (by decide)⟩


/-! ### Event handlers -/

theorem topicFilter_loop_hit (h : event.Handler) (e : event.Event) (topics : List String)
    (hhit : ∃ t ∈ topics, e.hasTopic t = true) : event.topicFilterFunc.loop h e topics = h e := by
  induction topics with
  | nil =>
    obtain ⟨t, ht, -⟩ := hhit
    simp at ht
  | cons t ts ih =>
    unfold event.topicFilterFunc.loop
    by_cases hc : e.hasTopic t = true
    · simp [hc]
    · simp only [hc, Bool.false_eq_true, if_false]
      apply ih
      obtain ⟨u, hu, he⟩ := hhit
      rcases List.mem_cons.mp hu with rfl | hu'
      · exact absurd he hc
      · exact ⟨u, hu', he⟩

theorem topicFilter_loop_miss (h : event.Handler) (e : event.Event) (topics : List String)
    (hmiss : ∀ t ∈ topics, e.hasTopic t = false) :
    event.topicFilterFunc.loop h e topics = event.topicFilterFunc.loop h e [] := by
  induction topics with
  | nil => rfl
  | cons t ts ih =>
    have step : event.topicFilterFunc.loop h e (t :: ts)
        = if e.hasTopic t then h e else event.topicFilterFunc.loop h e ts := rfl
    rw [step, hmiss t (List.mem_cons_self _ _)]
    simp only [Bool.false_eq_true, if_false]
    exact ih fun u hu => hmiss u (List.mem_cons_of_mem _ hu)

theorem topicFilter_single_eq_loop (topic : String) (h : event.Handler) (e : event.Event) :
    event.topicFilterFunc.single topic h e = event.topicFilterFunc.loop h e [topic] := by
  have step : event.topicFilterFunc.loop h e [topic]
      = if e.hasTopic topic then h e else event.topicFilterFunc.loop h e [] := rfl
  rw [step]
  unfold event.topicFilterFunc.single
  by_cases hc : e.hasTopic topic = true
  · simp [hc]
  · simp only [hc, Bool.false_eq_true, if_false]
    rfl

theorem topicFilterFunc_eq_loop (topics : List String) (h : event.Handler) (e : event.Event) :
    event.topicFilterFunc topics h e = event.topicFilterFunc.loop h e topics := by
  unfold event.topicFilterFunc
  split
  · exact topicFilter_single_eq_loop _ _ _
  · rfl

theorem attachHandler_loop_attached {b b' : event.internalBus event.Handler}
    {h : event.Handler} {uuids : List String} {id : String}
    (ha : event.internalBus.attachHandler.loop b h uuids = .attached b' id) :
    id ∉ b.workers.map Prod.fst ∧ id ∈ uuids ∧
      b'.workers = b.workers ++ [(id, event.newWorker id h)] := by
  induction uuids with
  | nil => simp [event.internalBus.attachHandler.loop] at ha
  | cons u us ih =>
    unfold event.internalBus.attachHandler.loop at ha
    split at ha
    · obtain ⟨h1, h2, h3⟩ := ih ha
      exact ⟨h1, List.mem_cons_of_mem _ h2, h3⟩
    · rename_i hfresh
      simp only [event.Attached.attached.injEq] at ha
      obtain ⟨rfl, rfl⟩ := ha
      exact ⟨by simpa using hfresh, List.mem_cons_self _ _, rfl⟩

/-- C13: let the synchronous handler `h` be attached with `Handle` on the
topic list `topics`, not nil, and let `e` be a request with the reply channel
`replyChan`. Then the bus has one more worker, stored under the identifier
returned, which was not in use; and when this worker handles `e`: if `e` has
one of the topics, `HandleSync` of `h` is called once and one reply, holding
the data and error of `h`, is sent on `replyChan`; if `e` has none of the
topics, `h` is not called and one empty reply is sent on `replyChan`. For any
handler and event, the fast path of `topicFilterFunc` for one topic does the
same as its general loop on the list of that topic. -/
theorem C13_sync_handler_replies_once (b b' : event.internalBus event.Handler)
    (h : event.HandlerSync) (topics uuids : List String) (id : String)
    (e : event.Event) (replyChan : Nat)
    (hattach : b.Handle h (some topics) uuids = .attached b' id)
    (hrequest : e.replyChan = some replyChan) :
    (∃ w : event.worker event.Handler,
      b'.workers = b.workers ++ [(id, w)] ∧ id ∉ b.workers.map Prod.fst ∧ w.id = id ∧
      ((∃ t ∈ topics, e.hasTopic t = true) →
        w.h e = .returned
          [.handleSync e, .send replyChan { Data := (h e).1, Err := (h e).2 }]) ∧
      ((∀ t ∈ topics, e.hasTopic t = false) →
        w.h e = .returned [.send replyChan { Data := none, Err := none }])) ∧
    (∀ (topic : String) (g : event.Handler) (ev : event.Event),
      event.topicFilterFunc.single topic g ev = event.topicFilterFunc.loop g ev [topic]) := by
  refine ⟨?_, topicFilter_single_eq_loop⟩
  simp only [event.internalBus.Handle, event.internalBus.attachHandler] at hattach
  obtain ⟨hfresh, -, hw⟩ := attachHandler_loop_attached hattach
  refine ⟨_, hw, hfresh, rfl, ?_, ?_⟩
  · intro hhit
    simp only [event.newWorker]
    rw [topicFilterFunc_eq_loop, topicFilter_loop_hit _ _ _ hhit]
    simp [event.internalBus.Handle.handler, hrequest]
  · intro hmiss
    simp only [event.newWorker]
    rw [topicFilterFunc_eq_loop, topicFilter_loop_miss _ _ _ hmiss]
    simp [event.topicFilterFunc.loop, hrequest]

/-- C13 on a bus that has one recipient, `idle`: the first identifier
drawn, `idle`, is taken, the second, `sync`, is free; the handler is attached
under `sync` on the topics `PrePlayerJoin` and `PreConnProcessing`, and for a
join request it calls `HandleSync` once and sends one reply with its data on
the reply channel 7. -/
theorem C13_sync_handler_replies_once_witness :
    (∃ b', event.internalBus.Handle event.oneRecipient event.allowAll
        (some ["PrePlayerJoin", "PreConnProcessing"]) ["idle", "sync"] = .attached b' "sync") ∧
    event.joinRequest.replyChan = some 7 ∧
    ∃ w : event.worker event.Handler,
      w.id = "sync" ∧
      w.h event.joinRequest
        = .returned [.handleSync event.joinRequest,
                     .send 7 { Data := some "allow", Err := none }] :=
  ⟨⟨_, rfl⟩, rfl,
   (C13_sync_handler_replies_once event.oneRecipient _ event.allowAll
      ["PrePlayerJoin", "PreConnProcessing"] ["idle", "sync"] "sync" event.joinRequest 7
      rfl rfl).1.elim
      fun w hw => ⟨w, hw.2.2.1, hw.2.2.2.1 ⟨"PrePlayerJoin", by decide, by decide⟩⟩⟩

/-! ### Config files -/

/-- C14, the code at the failing input: on a file system where every path can
be read and written, `ReadConfigFile` and `WriteConfigFile` panic for the name
`conf/config`, which has no extension, in the slice expression
`filepath.Ext(name)[1:]`; and so does `ReadConfigFile` for every readable
regular file, `WriteConfigFile` for every file in a directory that is no
symbolic link, when the name has no extension. Names with an extension are
dispatched: `json` to JSON, `yml` and `yaml` to YAML, every other extension,
the empty one after a final dot too, to the error `unsupported file type`. -/
theorem C14_name_without_extension_panics :
    provider.ReadConfigFile provider.plainFS provider.tagCodecs "conf/config"
      = .panicked "runtime error: slice bounds out of range [1:0]" ∧
    provider.WriteConfigFile provider.plainFS provider.tagCodecs "conf/config"
        (javaBind ":25565")
      = .panicked "runtime error: slice bounds out of range [1:0]" ∧
    (∀ (fs : provider.FileSystem) (codecs : provider.Codecs) (name resolved : String)
        (bb : List Nat),
      fs.EvalSymlinks name = .ok resolved → fs.Lstat resolved = .ok false →
      fs.ReadFile resolved = .ok bb → filepath.Ext resolved = "" →
        provider.ReadConfigFile fs codecs name
          = .panicked "runtime error: slice bounds out of range [1:0]") ∧
    (∀ (fs : provider.FileSystem) (codecs : provider.Codecs) (path : String)
        (cfg : ConfigMap),
      fs.Lstat (filepath.Split path).1 = .ok false →
      filepath.Ext (filepath.Split path).2 = "" →
        provider.WriteConfigFile fs codecs path cfg
          = .panicked "runtime error: slice bounds out of range [1:0]") ∧
    (provider.ReadConfigFile provider.plainFS provider.tagCodecs "conf/config.json"
        = .returned (some (javaBind "json")) none ∧
      provider.ReadConfigFile provider.plainFS provider.tagCodecs "conf/config.yml"
        = .returned (some (javaBind "yaml")) none ∧
      provider.ReadConfigFile provider.plainFS provider.tagCodecs "conf/config.yaml"
        = .returned (some (javaBind "yaml")) none ∧
      provider.ReadConfigFile provider.plainFS provider.tagCodecs "conf/config.toml"
        = .returned none (some "unsupported file type") ∧
      provider.ReadConfigFile provider.plainFS provider.tagCodecs "conf/config."
        = .returned none (some "unsupported file type")) ∧
    (provider.WriteConfigFile provider.plainFS provider.tagCodecs "conf/config.json"
          (javaBind ":25565")
        = .returned (some ("conf/config.json", ascii "json")) none ∧
      provider.WriteConfigFile provider.plainFS provider.tagCodecs "conf/config.yml"
          (javaBind ":25565")
        = .returned (some ("conf/config.yml", ascii "yaml")) none ∧
      provider.WriteConfigFile provider.plainFS provider.tagCodecs "conf/config.yaml"
          (javaBind ":25565")
        = .returned (some ("conf/config.yaml", ascii "yaml")) none ∧
      provider.WriteConfigFile provider.plainFS provider.tagCodecs "conf/config.toml"
          (javaBind ":25565")
        = .returned none (some "unsupported file type")) := by
  refine ⟨rfl, rfl, ?_, ?_, ⟨rfl, rfl, rfl, rfl, rfl⟩, ⟨rfl, rfl, rfl, rfl⟩⟩
  · intro fs codecs name resolved bb h1 h2 h3 h4
    simp [provider.ReadConfigFile, h1, h2, h3, h4, sliceFrom1]
  · intro fs codecs path cfg h1 h2
    simp [provider.WriteConfigFile, h1, h2, sliceFrom1]


end Infrared
